import Mathlib

/-!
Shallow embedding of the clox `cloudstore` subsystem (directory / file storage
engine): the relational store (`directories`, `paths`, `files` tables and the
`Query` methods of `internal/cloudstore/query.go`), the filesystem mirror
(`OSFileSystem`), the path mapper (`internal/cloudstore/path.go`), the IO layer
(`IO.NewDir` / `IO.NewFile` / `IO.ReadFileInfo`), and the directory / file
services (`internal/cloudstore/service.go`, `dir.go`, `file.go`).

Representation choices, uniform across the file:
* Database tables are lists of row structures; an SQL `INSERT` appends to the
  list, a `QueryRow ... Scan` is `List.find?`.
* Timestamps (`created_at`, `updated_at`, `last_write`, `uploaded_at`) are
  omitted from the row and value structures: no control flow in the embedded
  code depends on them.
* Filesystem paths are represented by their slash-separated component lists
  (Go builds them with `fmt.Sprintf("%s/%s", dir, strings.Join(ids, "/"))`;
  component ids are UUIDs and never contain a slash, so the two forms are in
  bijection).  The configured storage root contributes its component list.
* Go errors are an inductive type `Err`; an `app.Wrap` call site becomes a
  dedicated constructor carrying the data that the Go format strings embed.
* Environment nondeterminism (UUID generation, transaction-commit failure,
  multipart open/copy failure) is made explicit: generated ids are passed as
  arguments and failure outcomes as `Bool` flags.
* A goroutine `go s.Remove...` scheduled by a service is recorded in a
  `cleanups` list of target paths (the detached deletion is pending, not yet
  applied, when the service call returns).
-/

namespace Clox

/-! ### String helpers (Go `strings` / `path/filepath` functions)

`String` is handled through its character list so that every definition is
executable by `decide` in the kernel. -/

/-- Go `strings.Split(s, "/")`, via the character list of `s`. -/
def splitSlashAux : List Char → List Char → List String
  | [], acc => [String.mk acc.reverse]
  | '/' :: cs, acc => String.mk acc.reverse :: splitSlashAux cs []
  | c :: cs, acc => splitSlashAux cs (c :: acc)

/-- Go `strings.Split(s, "/")`. -/
def splitSlash (s : String) : List String :=
  splitSlashAux s.data []

/-- Go `strings.Join(xs, "/")`. -/
def joinSlash : List String → String
  | [] => ""
  | [x] => x
  | x :: xs => x ++ "/" ++ joinSlash xs

/-- Whether `s` starts with the character `c` (Go `s[0] == '/'` after a
non-emptiness guarantee, or `strings.HasPrefix` for a one-character pattern). -/
def headIs (s : String) (c : Char) : Bool :=
  match s.data with
  | [] => false
  | d :: _ => d = c

/-- Go `strings.TrimPrefix(s, "root")`: drop the four characters of `"root"`
when they lead `s`, otherwise return `s` unchanged. -/
def trimRootLabel (s : String) : String :=
  if ("root".data).isPrefixOf s.data then String.mk (s.data.drop 4) else s

/-- One step of the `path.Clean` element loop (Go `path/filepath.Clean` on a
Unix target): `out` is the reversed list of already-emitted elements. An empty
or `"."` element is dropped; `".."` pops the previous element unless the output
is empty (rooted paths drop it, relative paths keep it) or already ends in
`".."`; any other element is emitted. -/
def cleanStep (rooted : Bool) (out : List String) (seg : String) : List String :=
  if seg = "" ∨ seg = "." then out
  else if seg = ".." then
    match out with
    | [] => if rooted then [] else [".."]
    | last :: rest => if last = ".." then seg :: last :: rest else rest
  else seg :: out

/-- The cleaned element list of a path, in order (Go `path/filepath.Clean`
without the final string assembly). -/
def cleanSegs (rooted : Bool) (segs : List String) : List String :=
  (segs.foldl (cleanStep rooted) []).reverse

/-- Go `path/filepath.Clean` (Unix rules): `""` cleans to `"."`; a rooted path
keeps its leading slash; a relative path whose elements all cancel cleans to
`"."`. -/
def filepathClean (p : String) : String :=
  if p = "" then "."
  else
    let rooted := headIs p '/'
    let segs := cleanSegs rooted (splitSlash p)
    if rooted then "/" ++ joinSlash segs
    else if segs = [] then "." else joinSlash segs

/-! ### Data model: table rows, database, filesystem -/

/-- One row of the `directories` table (`id`, `user_id`, `name`, `parent_id`;
`parent_id IS NULL` marks a user's root directory). Timestamps omitted. -/
structure DirRow where
  id : String
  userID : String
  name : String
  parentID : Option String
deriving DecidableEq, Repr

/-- One row of the `paths` closure table: `parent_id` is the ancestor,
`child_id` the descendant, `depth` the distance. -/
structure PathRow where
  parentID : String
  childID : String
  depth : Nat
deriving DecidableEq, Repr

/-- One row of the `files` table. Timestamp omitted. -/
structure FileRow where
  id : String
  userID : String
  directoryID : String
  name : String
deriving DecidableEq, Repr

/-- The relational state: the three cloudstore tables. -/
structure DB where
  directories : List DirRow
  paths : List PathRow
  files : List FileRow
deriving DecidableEq, Repr

/-- The local filesystem state under (and including) the configured storage
root: `dirs` is the set of existing directories, `files` maps each existing
file path to its byte size (Go reads the size back with `os.Stat`). The
storage root itself is a member of `dirs` once `SetupFSRoot` has run. -/
structure FS where
  dirs : List (List String)
  files : List (List String × Int)
deriving DecidableEq, Repr

/-- Errors of the embedded subsystem. The first group are the sentinel /
driver errors produced at the store and filesystem boundary; the second group
are the `app.Wrap` domain errors produced by the services, each constructor
carrying the data its Go format string embeds. -/
inductive Err where
  /-- `ErrForeignKeyParentID` (query.go): `parent_id` foreign-key violation. -/
  | foreignKeyParentID
  /-- `ErrUniqueNameParentID` (query.go): `(name, parent_id)` unique violation. -/
  | uniqueNameParentID
  /-- `ErrUniqueUserRoot` (query.go): second null-parent `root` row for a user. -/
  | uniqueUserRoot
  /-- Modelled from the spec: `parent_id` has SQL type UUID, so a value that is
  not UUID syntax fails the insert with a 22P02 syntax error, surfaced as the
  sentinel `ErrSyntaxParentID` that `writeDir` maps to its invalid-parent
  domain error. The sentinel's definition is not under `src/`. -/
  | syntaxParentID
  /-- Modelled from the spec: `ErrUniqueDirectoryIDName`, the files-table
  `(directory_id, name)` unique violation. Definition not under `src/`. -/
  | uniqueDirectoryIDName
  /-- An unmapped primary-key violation (raw `pq` error, no sentinel). -/
  | pkViolation
  /-- An unmapped foreign-key violation on `files.directory_id`. -/
  | fkDirectoryID
  /-- `sql.ErrNoRows`. -/
  | noRows
  /-- `ErrCommitTx` (store): the transaction commit failed. -/
  | commitTx
  /-- `ErrCopy` (`OSFileSystem.Copy`): copying the upload stream failed. -/
  | copy
  /-- `multipart.FileHeader.Open` failed. -/
  | openFile
  /-- `os` path error: the target of `Mkdir` already exists. -/
  | fsExist
  /-- `os` path error: a path component does not exist (`Stat` / `Mkdir` /
  `OpenFile` on a missing parent). -/
  | fsNotExist
  /-- `newDir` / `new`: "Directory name cannot be empty" (400). -/
  | emptyName
  /-- `FindDir` miss: the Go error names the missing segment (`pName`) and the
  safe message joins the consumed segments `paths[1:i+1]` (400). -/
  | dirSegmentNotFound (segment : String) (joined : String)
  /-- `NewDirPath` walk miss: both the error and the safe message name just the
  missing segment (400). -/
  | dirPathSegmentNotFound (segment : String)
  /-- `writeDir` mapping of `ErrForeignKeyParentID`: parent does not exist (400). -/
  | parentNotFound (parentID : String)
  /-- `writeDir` mapping of `ErrUniqueNameParentID`: name already exists (400). -/
  | dirNameTaken (name : String) (parentID : String)
  /-- `writeDir` mapping of `ErrSyntaxParentID`: invalid parent id (400). -/
  | invalidParentID (parentID : String)
  /-- `ValidateUserDir` wrap: "problem with your accounts root storage" (400),
  with the failing root-creation error as cause. -/
  | rootStorageProblem (cause : Err)
  /-- `SaveBatch` directory check: directory id does not exist for user (400). -/
  | dirIDNotFound (directoryID : String)
  /-- `FileService.write` mapping of `ErrUniqueDirectoryIDName` (400). -/
  | fileNameTaken (name : String) (directoryID : String)
  /-- `FileService.Info` mapping of `sql.ErrNoRows`: "File not found"
  (`http.StatusNotFound`, 404). -/
  | fileNotFound (fileID : String)
deriving DecidableEq, Repr

/-- Whether an error is the NotFound domain error of the file-info path: the
only `app.Wrap` in `FileService.Info` that carries `http.StatusNotFound`. -/
def Err.isFileNotFound : Err → Bool
  | .fileNotFound _ => true
  | _ => false

/-! ### Query (query.go, plus spec-modelled file queries) -/

/-- Hexadecimal digit (for UUID syntax). -/
def isHexDigit (c : Char) : Bool :=
  c.isDigit || ('a' ≤ c && c ≤ 'f') || ('A' ≤ c && c ≤ 'F')

/-- Modelled from the spec / schema: PostgreSQL UUID literal syntax in its
canonical 36-character form (8-4-4-4-12 hexadecimal groups separated by
hyphens). Values inserted into the UUID-typed `parent_id` column must parse
as this, else the statement fails with a 22P02 syntax error. -/
def isUUIDSyntax (s : String) : Bool :=
  (s.data.length == 36) &&
    (List.range 36).all fun i =>
      if i == 8 || i == 13 || i == 18 || i == 23 then s.data.getD i ' ' == '-'
      else isHexDigit (s.data.getD i ' ')

/-- `Query.InsertDirectory`: append a directory row, failing with the mapped
sentinel errors on constraint violations. For a non-null parent the UUID
syntax of the parent value is checked first (statement parse), then the
`id` primary key, the `(parent_id, name)` unique constraint
(`unique_directory_name_parent`; SQL `NULL`s never collide, so it only applies
to non-null parents), and the `parent_id` foreign key. For a null parent the
partial unique constraint `unique_user_root_directory` on `(user_id, name)
WHERE parent_id IS NULL` applies instead. -/
def insertDirectory (db : DB) (c : DirRow) : Except Err DB :=
  match c.parentID with
  | some p =>
    if ¬ isUUIDSyntax p then .error .syntaxParentID
    else if db.directories.any (fun r => r.id == c.id) then .error .pkViolation
    else if db.directories.any (fun r => r.parentID == some p && r.name == c.name) then
      .error .uniqueNameParentID
    else if db.directories.all (fun r => r.id != p) then .error .foreignKeyParentID
    else .ok { db with directories := db.directories ++ [c] }
  | none =>
    if db.directories.any (fun r => r.id == c.id) then .error .pkViolation
    else if db.directories.any
        (fun r => r.userID == c.userID && r.parentID == none && r.name == c.name) then
      .error .uniqueUserRoot
    else .ok { db with directories := db.directories ++ [c] }

/-- `Query.InsertSelfPath`: the depth-0 self edge `(id, id, 0)`. -/
def insertSelfPath (db : DB) (directoryID : String) : Except Err DB :=
  if db.paths.any (fun r => r.parentID == directoryID && r.childID == directoryID) then
    .error .pkViolation
  else .ok { db with paths := db.paths ++ [⟨directoryID, directoryID, 0⟩] }

/-- The row set the `INSERT ... SELECT parent_id, $1, depth + 1 FROM paths
WHERE child_id = $2` of `InsertParentPaths` produces: every ancestry row of
the parent, with the child substituted and the depth incremented. -/
def shiftedRows (paths : List PathRow) (parentID childID : String) : List PathRow :=
  (paths.filter (fun r => r.childID == parentID)).map
    (fun r => PathRow.mk r.parentID childID (r.depth + 1))

/-- `Query.InsertParentPaths`: bulk-insert the copied-and-incremented ancestry
rows of the parent for the new child. Primary-key violations (against existing
rows or within the inserted batch) surface as a raw constraint error. -/
def insertParentPaths (db : DB) (parentID childID : String) : Except Err DB :=
  if (shiftedRows db.paths parentID childID).any (fun n =>
      db.paths.any (fun r => r.parentID == n.parentID && r.childID == n.childID)) then
    .error .pkViolation
  else if ¬ ((shiftedRows db.paths parentID childID).map
      (fun n => (n.parentID, n.childID))).Nodup then .error .pkViolation
  else .ok { db with paths := db.paths ++ shiftedRows db.paths parentID childID }

/-- Insertion into a list sorted by descending `depth` (model of the SQL
`ORDER BY p.depth DESC`). -/
def insertDepthDesc (r : PathRow) : List PathRow → List PathRow
  | [] => [r]
  | x :: xs => if x.depth ≤ r.depth then r :: x :: xs else x :: insertDepthDesc r xs

/-- Sort ancestry rows by descending depth. -/
def sortDepthDesc (l : List PathRow) : List PathRow :=
  l.foldr insertDepthDesc []

/-- The ancestry rows of `directoryID` as descendant, ordered root-first
(`WHERE p.child_id = $1 ORDER BY p.depth DESC`). -/
def selectAncestorRows (db : DB) (directoryID : String) : List PathRow :=
  sortDepthDesc (db.paths.filter (fun r => r.childID == directoryID))

/-- `Query.SelectDirectoryFSPath`: the ancestor ids of `directoryID`,
root-first (`SELECT d.id ... JOIN directories d ON p.parent_id = d.id`).
The inner join keeps rows whose ancestor has a directory row. -/
def selectDirectoryFSPath (db : DB) (directoryID : String) : List String :=
  (selectAncestorRows db directoryID).filterMap
    (fun r => (db.directories.find? (fun d => d.id == r.parentID)).map (fun d => d.id))

/-- `Query.SelectDirectoryPath`: the ancestor names of `directoryID`,
root-first (same join, selecting `d.name`). -/
def selectDirectoryPath (db : DB) (directoryID : String) : List String :=
  (selectAncestorRows db directoryID).filterMap
    (fun r => (db.directories.find? (fun d => d.id == r.parentID)).map (fun d => d.name))

/-- `Query.SelectUserRootDirectory`: the user's row with `parent_id IS NULL
AND name = 'root'`; `none` models `sql.ErrNoRows`. -/
def selectUserRootDirectory (db : DB) (userID : String) : Option DirRow :=
  db.directories.find?
    (fun r => r.parentID == none && r.name == "root" && r.userID == userID)

/-- `Query.SelectDirectoryByUserNameParent`: lookup by `(user_id, name,
parent_id)`; the SQL `parent_id = $3` comparison never matches a `NULL`
parent. -/
def selectDirectoryByUserNameParent (db : DB) (userID name parentID : String) :
    Option DirRow :=
  db.directories.find?
    (fun r => r.userID == userID && r.name == name && r.parentID == some parentID)

/-- Modelled from the spec: `Query.InsertFile` (definition not under `src/`),
appending a file row and failing with `ErrUniqueDirectoryIDName` on the
`UNIQUE(directory_id, name)` constraint of the files table; primary-key and
`directory_id` foreign-key violations surface as raw errors. -/
def insertFile (db : DB) (c : FileRow) : Except Err DB :=
  if db.files.any (fun r => r.id == c.id) then .error .pkViolation
  else if db.files.any (fun r => r.directoryID == c.directoryID && r.name == c.name) then
    .error .uniqueDirectoryIDName
  else if db.directories.all (fun d => d.id != c.directoryID) then .error .fkDirectoryID
  else .ok { db with files := db.files ++ [c] }

/-- Modelled from the spec: `Query.SelectFileByIDUser` (definition not under
`src/`), the ownership-scoped file lookup by `(id, user_id)`; `none` models
`sql.ErrNoRows`. -/
def selectFileByIDUser (db : DB) (fileID userID : String) : Option FileRow :=
  db.files.find? (fun r => r.id == fileID && r.userID == userID)

/-- Modelled from the spec: `Query.SelectDirectoryByIDUser` (definition not
under `src/`), the ownership-scoped directory lookup by `(id, user_id)`. -/
def selectDirectoryByIDUser (db : DB) (directoryID userID : String) : Option DirRow :=
  db.directories.find? (fun r => r.id == directoryID && r.userID == userID)

/-! ### Filesystem mirror (OSFileSystem) -/

/-- `os.Mkdir`: fails if the target exists or its parent does not; otherwise
adds the directory. -/
def FS.mkdir (fs : FS) (p : List String) : Except Err FS :=
  if fs.dirs.contains p then .error .fsExist
  else if ¬ fs.dirs.contains p.dropLast then .error .fsNotExist
  else .ok { fs with dirs := p :: fs.dirs }

/-- `OSFileSystem.Create` (`os.OpenFile` with `O_WRONLY|O_CREATE|O_TRUNC`):
fails if the parent directory does not exist; creates the file, truncating an
existing one to zero bytes. -/
def FS.create (fs : FS) (p : List String) : Except Err FS :=
  if ¬ fs.dirs.contains p.dropLast then .error .fsNotExist
  else .ok { fs with files := (p, 0) :: fs.files.filter (fun f => f.1 ≠ p) }

/-- `io.Copy` writing `n` bytes into the file at `p` (the file was just
created by `FS.create`). -/
def FS.writeSize (fs : FS) (p : List String) (n : Int) : FS :=
  { fs with files := (p, n) :: fs.files.filter (fun f => f.1 ≠ p) }

/-- `os.Stat`: the size of the file at `p`, `0` for a directory, or a
not-exist path error. -/
def FS.stat (fs : FS) (p : List String) : Except Err Int :=
  match fs.files.find? (fun f => f.1 == p) with
  | some f => .ok f.2
  | none => if fs.dirs.contains p then .ok 0 else .error .fsNotExist

/-- `os.RemoveAll`: removes the path and everything below it; never fails on a
missing path. -/
def FS.removeAll (fs : FS) (p : List String) : FS :=
  { dirs := fs.dirs.filter (fun d => ¬ p.isPrefixOf d),
    files := fs.files.filter (fun f => ¬ p.isPrefixOf f.1) }

/-! ### PathMapper (path.go) -/

/-- `PathMapper`: `root` is the configured storage-root path, as its component
list. -/
structure PathMapper where
  root : List String
deriving DecidableEq, Repr

/-- `DirSearch`: parameters of `PathMapper.FindDir`. -/
structure DirSearch where
  userID : String
  rootID : String
  path : String
deriving DecidableEq, Repr

/-- The walked segment list of a user path: clean the path, force the
synthetic `root` first segment (`"."`/`"/"` become `"root"`, a rooted clean
path gets `"root"` prepended, a relative one gets `"root/"` prepended), split
on `/`, and drop the `root` segment itself — Go's `path[1:]` loop range in
`FindDir` / `NewDirPath`. -/
def pathSegs (pathStr : String) : List String :=
  let fp := filepathClean pathStr
  let p := if fp = "." ∨ fp = "/" then "root"
           else if headIs fp '/' then "root" ++ fp
           else "root/" ++ fp
  (splitSlash p).drop 1

/-- The per-segment walk of `PathMapper.FindDir`: look each segment up by
`(user, name, parent)`; on a miss the error names the missing segment
(`pName`) and the safe message joins the consumed segments `paths[1:i+1]`.
`pre` accumulates the already-consumed segments. -/
def findDirLoop (db : DB) (userID : String) :
    String → List String → List String → Except Err String
  | dirID, _, [] => .ok dirID
  | dirID, pre, seg :: rest =>
    match selectDirectoryByUserNameParent db userID seg dirID with
    | some dir => findDirLoop db userID dir.id (pre ++ [seg]) rest
    | none => .error (.dirSegmentNotFound seg (joinSlash (pre ++ [seg])))

/-- `PathMapper.FindDir`: resolve a user-facing path to a directory id by
walking from the user's root. Performs only `SELECT`s — it never writes to
either the database or the filesystem, which the pure signature makes
structural. -/
def PathMapper.findDir (db : DB) (d : DirSearch) : Except Err String :=
  findDirLoop db d.userID d.rootID [] (pathSegs d.path)

/-- `PathMapper.GetDir` (the `pm` receiver is unused in Go as well): join the
ancestor names, strip the synthetic `root` label, and render the user's root
as `"/"`. -/
def PathMapper.getDir (db : DB) (id : String) : String :=
  let namePath := selectDirectoryPath db id
  let userPath := trimRootLabel (joinSlash namePath)
  if userPath = "" then "/" else userPath

/-- `PathMapper.GetFile`: the user-facing path of a file inside directory
`dirID`. -/
def PathMapper.getFile (db : DB) (dirID filename : String) : String :=
  let dirPath := PathMapper.getDir db dirID
  if dirPath = "/" then dirPath ++ filename else dirPath ++ "/" ++ filename

/-- `PathMapper.GetDirFS`: the filesystem path of a directory — the storage
root followed by the ancestor ids. -/
def PathMapper.getDirFS (pm : PathMapper) (db : DB) (id : String) : List String :=
  pm.root ++ selectDirectoryFSPath db id

/-- `PathMapper.GetFileFS`: the filesystem path of a file — its containing
directory's filesystem path with the file id as last component. -/
def PathMapper.getFileFS (pm : PathMapper) (db : DB) (dirID fileID : String) :
    List String :=
  pm.root ++ selectDirectoryFSPath db dirID ++ [fileID]

/-! ### IO layer (the cloudstore `IO` struct) -/

/-- `NewDirIO`: the parameters of `IO.NewDir`. `parentID` is the
`sql.NullString` (`none` for a root directory). Timestamps and the permission
bits are omitted. -/
structure NewDirIo where
  id : String
  userID : String
  name : String
  parentID : Option String
deriving DecidableEq, Repr

/-- `DirIO`: the value `IO.NewDir` returns. `parentID` is Go's
`d.ParentID.String` — the empty string when the null-string is invalid. -/
structure DirIo where
  id : String
  userID : String
  name : String
  parentID : String
  fsPath : List String
  userPath : String
deriving DecidableEq, Repr

/-- `IO.NewDir`: stage the directory row, the self edge and (for a sub
directory) the copied-and-incremented ancestor edges, resolve the filesystem
and user paths from the staged ancestry, and only then `Mkdir` the physical
directory. Any error leaves the filesystem untouched, because `Mkdir` is the
last operation and fails atomically; the staged rows are rolled back by the
surrounding transaction. -/
def Io.newDir (pm : PathMapper) (db : DB) (fs : FS) (d : NewDirIo) :
    Except Err (DB × FS × DirIo) :=
  match insertDirectory db ⟨d.id, d.userID, d.name, d.parentID⟩ with
  | .error e => .error e
  | .ok db1 =>
    match insertSelfPath db1 d.id with
    | .error e => .error e
    | .ok db2 =>
      match (match d.parentID with
             | some p => insertParentPaths db2 p d.id
             | none => .ok db2) with
      | .error e => .error e
      | .ok db3 =>
        match fs.mkdir (pm.getDirFS db3 d.id) with
        | .error e => .error e
        | .ok fs1 =>
          .ok (db3, fs1, ⟨d.id, d.userID, d.name, d.parentID.getD "",
                          pm.getDirFS db3 d.id, PathMapper.getDir db3 d.id⟩)

/-! ### Directory service (service.go / dir.go) -/

/-- The `Dir` value object (timestamps omitted). -/
structure Dir where
  ID : String
  Owner : String
  Name : String
  Path : String
deriving DecidableEq, Repr

/-- Decidable equality on `Except`, so that outcomes can be compared by
`decide` in concrete witnesses. -/
instance {ε α : Type} [DecidableEq ε] [DecidableEq α] : DecidableEq (Except ε α)
  | .error e, .error f =>
    if h : e = f then .isTrue (by rw [h]) else .isFalse (by intro hh; cases hh; exact h rfl)
  | .error _, .ok _ => .isFalse (by intro hh; cases hh)
  | .ok _, .error _ => .isFalse (by intro hh; cases hh)
  | .ok a, .ok b =>
    if h : a = b then .isTrue (by rw [h]) else .isFalse (by intro hh; cases hh; exact h rfl)

/-- The observable outcome of a service call: the returned value or error, the
database (rolled back on any transaction error), the filesystem, and the paths
of any scheduled (detached, not yet executed) compensating deletions. -/
structure WriteOut (α : Type) where
  res : Except Err α
  db : DB
  fs : FS
  cleanups : List (List String)
deriving DecidableEq

/-- The error mapping of `writeDir`'s `switch`: the three store sentinels that
are wrapped into domain errors; everything else (including `ErrCommitTx` and
`ErrUniqueUserRoot`, which have no case) passes through unchanged. -/
def mapWriteDirErr (name parentID : String) : Err → Err
  | .foreignKeyParentID => .parentNotFound parentID
  | .uniqueNameParentID => .dirNameTaken name parentID
  | .syntaxParentID => .invalidParentID parentID
  | e => e

/-- `writeDir` (`Service.writeDir` / `DirService.write`): run `IO.NewDir`
inside a transaction. On a staging error the transaction rolls back and the
mapped error is returned. On a commit failure (`commitFails`) the relational
writes roll back, the already-created physical directory survives on disk, a
detached `RemoveDir` of `dir.FSPath` is scheduled, and `ErrCommitTx` is
returned. `newID` is the `uuid.NewString()` of this call. -/
def DirService.write (pm : PathMapper) (db : DB) (fs : FS)
    (userID name parentID newID : String) (commitFails : Bool) : WriteOut Dir :=
  match Io.newDir pm db fs
      ⟨newID, userID, name, if parentID = "" then none else some parentID⟩ with
  | .error e =>
    { res := .error (mapWriteDirErr name parentID e), db := db, fs := fs, cleanups := [] }
  | .ok (db1, fs1, dir) =>
    if commitFails then
      { res := .error .commitTx, db := db, fs := fs1, cleanups := [dir.fsPath] }
    else
      { res := .ok ⟨dir.id, dir.userID, dir.name, dir.userPath⟩,
        db := db1, fs := fs1, cleanups := [] }

/-- `ValidateUserDir` (`DirService.ValidateUser`): return the user's root
directory, creating it first (name `"root"`, null parent, generated id
`rootID`) when the lookup reports no row; a creation failure is wrapped into
the root-storage domain error. An existing root is returned with path `"/"`
and nothing is written. -/
def DirService.validateUserDir (pm : PathMapper) (db : DB) (fs : FS)
    (userID rootID : String) (rootCommitFails : Bool) : WriteOut Dir :=
  match selectUserRootDirectory db userID with
  | some row =>
    { res := .ok ⟨row.id, row.userID, row.name, "/"⟩, db := db, fs := fs, cleanups := [] }
  | none =>
    let w := DirService.write pm db fs userID "root" "" rootID rootCommitFails
    match w.res with
    | .error e => { w with res := .error (.rootStorageProblem e) }
    | .ok d => { w with res := .ok d }

/-- The environment of one directory-creation entry point: the generated UUID
and commit outcome of the (possibly) lazily-provisioned root, and of the new
directory itself. -/
structure DirEnv where
  rootID : String
  rootCommitFails : Bool
  dirID : String
  dirCommitFails : Bool
deriving DecidableEq, Repr

/-- `Service.NewDir` (`DirService.New`): reject an empty name before touching
any state, ensure the user's root exists, default an empty `parentID` to the
root, and delegate to `writeDir`. -/
def Service.NewDir (pm : PathMapper) (db : DB) (fs : FS)
    (userID name parentID : String) (env : DirEnv) : WriteOut Dir :=
  if name = "" then { res := .error .emptyName, db := db, fs := fs, cleanups := [] }
  else
    let v := DirService.validateUserDir pm db fs userID env.rootID env.rootCommitFails
    match v.res with
    | .error e => { v with res := .error e }
    | .ok root =>
      let pid := if parentID = "" then root.ID else parentID
      let w := DirService.write pm v.db v.fs userID name pid env.dirID env.dirCommitFails
      { res := w.res, db := w.db, fs := w.fs, cleanups := v.cleanups ++ w.cleanups }

/-- The inline path walk of `Service.NewDirPath` (`DirService.NewPath`): like
`FindDir`'s loop but its miss error (and safe message) names just the missing
segment. -/
def newDirPathLoop (db : DB) (userID : String) :
    String → List String → Except Err String
  | parentID, [] => .ok parentID
  | parentID, seg :: rest =>
    match selectDirectoryByUserNameParent db userID seg parentID with
    | some dir => newDirPathLoop db userID dir.id rest
    | none => .error (.dirPathSegmentNotFound seg)

/-- `Service.NewDirPath` (`DirService.NewPath`): reject an empty name, ensure
the user's root, resolve the parent directory by walking the cleaned path from
the root, and delegate to `writeDir`. -/
def Service.NewDirPath (pm : PathMapper) (db : DB) (fs : FS)
    (userID name pathStr : String) (env : DirEnv) : WriteOut Dir :=
  if name = "" then { res := .error .emptyName, db := db, fs := fs, cleanups := [] }
  else
    let v := DirService.validateUserDir pm db fs userID env.rootID env.rootCommitFails
    match v.res with
    | .error e => { v with res := .error e }
    | .ok root =>
      match newDirPathLoop v.db userID root.ID (pathSegs pathStr) with
      | .error e => { v with res := .error e }
      | .ok parentID =>
        let w := DirService.write pm v.db v.fs userID name parentID env.dirID
          env.dirCommitFails
        { res := w.res, db := w.db, fs := w.fs, cleanups := v.cleanups ++ w.cleanups }

/-! ### File service (file.go, IO.NewFile / IO.ReadFileInfo) -/

/-- A `multipart.FileHeader` together with its environment behavior: whether
`Open` fails and whether the `io.Copy` of its contents fails. -/
structure FileHeader where
  filename : String
  size : Int
  openFails : Bool
  copyFails : Bool
deriving DecidableEq, Repr

/-- `NewFileIO`: parameters of `IO.NewFile` (timestamps and permissions
omitted). -/
structure NewFileIo where
  id : String
  userID : String
  directoryID : String
  header : FileHeader
deriving DecidableEq, Repr

/-- `FileIO`: the value `IO.NewFile` / `IO.ReadFileInfo` build (timestamps
omitted). The Go zero value has empty strings and the empty path. -/
structure FileIo where
  id : String
  userID : String
  directoryID : String
  name : String
  fsPath : List String
  userPath : String
  size : Int
deriving DecidableEq, Repr

/-- The Go zero value of `FileIO` (`var file FileIO`); its empty `FSPath`
string is the empty component list. -/
def FileIo.zero : FileIo := ⟨"", "", "", "", [], "", 0⟩

/-- `IO.NewFile`: open the upload, insert the file row, resolve the user and
filesystem paths from the (staged) database, create the physical file named by
the generated file id, and copy the bytes into it. The filesystem component of
the result is returned even on error: a failing copy leaves the just-created
(truncated) file on disk. -/
def Io.newFile (pm : PathMapper) (db : DB) (fs : FS) (f : NewFileIo) :
    (Except Err (DB × FileIo)) × FS :=
  if f.header.openFails then (.error .openFile, fs)
  else
    match insertFile db ⟨f.id, f.userID, f.directoryID, f.header.filename⟩ with
    | .error e => (.error e, fs)
    | .ok db1 =>
      let userPath := PathMapper.getFile db1 f.directoryID f.header.filename
      let fsPath := pm.getFileFS db1 f.directoryID f.id
      match fs.create fsPath with
      | .error e => (.error e, fs)
      | .ok fs1 =>
        if f.header.copyFails then (.error .copy, fs1)
        else
          (.ok (db1, ⟨f.id, f.userID, f.directoryID, f.header.filename, fsPath,
                      userPath, f.header.size⟩),
           fs1.writeSize fsPath f.header.size)

/-- The `FileInfo` value object (timestamps omitted). -/
structure FileInfo where
  id : String
  ownerID : String
  directoryID : String
  name : String
  path : String
  size : Int
  fsPath : List String
deriving DecidableEq, Repr

/-- The Go zero value of `FileInfo`. -/
def FileInfo.zero : FileInfo := ⟨"", "", "", "", "", 0, []⟩

/-- `FileIO.fileInfo`: project a `FileIO` to a `FileInfo`. -/
def FileIo.fileInfo (f : FileIo) : FileInfo :=
  ⟨f.id, f.userID, f.directoryID, f.name, f.userPath, f.size, f.fsPath⟩

/-- `FileService.write`: run `IO.NewFile` in a transaction. Returns, like Go's
`(FileInfo, error)` pair, a `FileInfo` that on error carries only the original
filename and size; plus the resulting database (rolled back on error),
filesystem, and scheduled detached deletions. On `ErrCommitTx` the deletion
targets the created file's path; on `ErrCopy` the local `file` variable is
still the zero `FileIO` (it is only assigned when `NewFile` succeeds), so the
scheduled deletion targets the zero value's empty path. -/
def FileService.write (pm : PathMapper) (db : DB) (fs : FS)
    (userID directoryID : String) (header : FileHeader) (newID : String)
    (commitFails : Bool) : FileInfo × Option Err × DB × FS × List (List String) :=
  match Io.newFile pm db fs ⟨newID, userID, directoryID, header⟩ with
  | (.error e, fs1) =>
    let e1 := match e with
      | .uniqueDirectoryIDName => Err.fileNameTaken header.filename directoryID
      | _ => e
    let cleanups : List (List String) := match e with
      | .copy => [FileIo.zero.fsPath]
      | _ => []
    ({ FileInfo.zero with name := header.filename, size := header.size },
     some e1, db, fs1, cleanups)
  | (.ok (db1, file), fs1) =>
    if commitFails then
      ({ FileInfo.zero with name := header.filename, size := header.size },
       some .commitTx, db, fs1, [file.fsPath])
    else (file.fileInfo, none, db1, fs1, [])

/-- `BatchSave`: the per-item result of a batch upload. -/
structure BatchSave where
  fileInfo : FileInfo
  err : Option Err
deriving DecidableEq, Repr

/-- One incoming batch item with its per-iteration environment: the header,
the `uuid.NewString()` of that iteration, and that transaction's commit
outcome. -/
structure BatchItem where
  header : FileHeader
  newID : String
  commitFails : Bool
deriving DecidableEq, Repr

/-- The `for _, header := range fileHeaders` loop of `saveBatch`: write each
file in order, pairing every outcome (success or error) with its `FileInfo`,
and accumulate the scheduled deletions. -/
def saveBatchLoop (pm : PathMapper) (userID directoryID : String) :
    DB → FS → List BatchItem → List BatchSave × DB × FS × List (List String)
  | db, fs, [] => ([], db, fs, [])
  | db, fs, it :: rest =>
    let (fi, err, db1, fs1, cl) :=
      FileService.write pm db fs userID directoryID it.header it.newID it.commitFails
    let (results, db2, fs2, cls) := saveBatchLoop pm userID directoryID db1 fs1 rest
    (⟨fi, err⟩ :: results, db2, fs2, cl ++ cls)

/-- The root-provisioning environment of a batch call. -/
structure FileEnv where
  rootID : String
  rootCommitFails : Bool
deriving DecidableEq, Repr

/-- `FileService.SaveBatch`: ensure the user's root (via the injected
`ValidateUserDir`), resolve the target directory (empty id defaults to the
root; otherwise the directory must exist and belong to the user), then write
every file independently, collecting one `BatchSave` per input in order. -/
def FileService.SaveBatch (pm : PathMapper) (db : DB) (fs : FS)
    (userID directoryID : String) (items : List BatchItem) (env : FileEnv) :
    (Except Err (List BatchSave)) × DB × FS × List (List String) :=
  let v := DirService.validateUserDir pm db fs userID env.rootID env.rootCommitFails
  match v.res with
  | .error e => (.error e, v.db, v.fs, v.cleanups)
  | .ok root =>
    match (if directoryID = "" then Except.ok root.ID
           else match selectDirectoryByIDUser v.db directoryID userID with
                | some _ => Except.ok directoryID
                | none => Except.error (Err.dirIDNotFound directoryID)) with
    | .error e => (.error e, v.db, v.fs, v.cleanups)
    | .ok dirID =>
      let (results, db1, fs1, cls) := saveBatchLoop pm userID dirID v.db v.fs items
      (.ok results, db1, fs1, v.cleanups ++ cls)

/-- The database and filesystem reached after the `saveBatch` loop has
processed a block of items (used to state the per-item outcome of a batch). -/
def batchState (pm : PathMapper) (userID directoryID : String) :
    DB → FS → List BatchItem → DB × FS
  | db, fs, [] => (db, fs)
  | db, fs, it :: rest =>
    let (_, _, db1, fs1, _) :=
      FileService.write pm db fs userID directoryID it.header it.newID it.commitFails
    batchState pm userID directoryID db1 fs1 rest

/-- `IO.ReadFileInfo`: fetch the file row scoped by ownership (`sql.ErrNoRows`
when absent), resolve its user and filesystem paths, and `Stat` the physical
file for its live size; a stat failure (missing bytes) is returned as the raw
path error. -/
def Io.readFileInfo (pm : PathMapper) (db : DB) (fs : FS) (userID fileID : String) :
    Except Err FileInfo :=
  match selectFileByIDUser db fileID userID with
  | none => .error .noRows
  | some row =>
    let userPath := PathMapper.getFile db row.directoryID row.name
    let fsPath := pm.getFileFS db row.directoryID row.id
    match fs.stat fsPath with
    | .error e => .error e
    | .ok size =>
      .ok ⟨row.id, row.userID, row.directoryID, row.name, userPath, size, fsPath⟩

/-- `FileService.Info`: read the file info, mapping only `sql.ErrNoRows` to
the 404 "File not found" domain error; every other error — including the stat
path error for a row whose bytes are missing — is returned unchanged. -/
def FileService.Info (pm : PathMapper) (db : DB) (fs : FS)
    (userID fileID : String) : Except Err FileInfo :=
  match Io.readFileInfo pm db fs userID fileID with
  | .error e => if e = .noRows then .error (.fileNotFound fileID) else .error e
  | .ok fi => .ok fi

/-! ### Concrete fixtures for witnesses and counterexamples -/

/-- A path mapper whose storage root is the empty component list. -/
def pmW : PathMapper := ⟨[]⟩

/-- A fixture directory id (valid UUID syntax). -/
def uuidW1 : String := "00000000-0000-0000-0000-000000000001"

/-- A fixture directory id (valid UUID syntax). -/
def uuidW2 : String := "00000000-0000-0000-0000-000000000002"

/-- A fixture directory id (valid UUID syntax). -/
def uuidW3 : String := "00000000-0000-0000-0000-000000000003"

/-- A fixture id (valid UUID syntax). -/
def uuidW4 : String := "00000000-0000-0000-0000-000000000004"

/-- A fixture id (valid UUID syntax). -/
def uuidW5 : String := "00000000-0000-0000-0000-000000000005"

/-- An empty filesystem holding only the storage root. -/
def fsW : FS := ⟨[[]], []⟩

/-- An empty database. -/
def dbW : DB := ⟨[], [], []⟩

/-- A database where user `u1` has a root directory and a `docs` directory
under it, with the matching ancestry rows. -/
def dbDocs : DB :=
  ⟨[⟨uuidW1, "u1", "root", none⟩, ⟨uuidW2, "u1", "docs", some uuidW1⟩],
   [⟨uuidW1, uuidW1, 0⟩, ⟨uuidW2, uuidW2, 0⟩, ⟨uuidW1, uuidW2, 1⟩], []⟩

/-- The filesystem matching `dbDocs`. -/
def fsDocs : FS := ⟨[[uuidW1, uuidW2], [uuidW1], []], []⟩

/-- The database after staging `notes` under `docs` in `dbDocs`. -/
def dbNotes : DB :=
  ⟨[⟨uuidW1, "u1", "root", none⟩, ⟨uuidW2, "u1", "docs", some uuidW1⟩,
    ⟨uuidW3, "u1", "notes", some uuidW2⟩],
   [⟨uuidW1, uuidW1, 0⟩, ⟨uuidW2, uuidW2, 0⟩, ⟨uuidW1, uuidW2, 1⟩,
    ⟨uuidW3, uuidW3, 0⟩, ⟨uuidW2, uuidW3, 1⟩, ⟨uuidW1, uuidW3, 2⟩], []⟩

/-- The filesystem after the physical `notes` directory was created. -/
def fsNotes : FS := ⟨[[uuidW1, uuidW2, uuidW3], [uuidW1, uuidW2], [uuidW1], []], []⟩

/-- The `DirIO` built for the staged `notes` directory. -/
def dirNotes : DirIo :=
  ⟨uuidW3, "u1", "notes", uuidW2, [uuidW1, uuidW2, uuidW3], "/docs/notes"⟩

/-- A database where user `u1` has a root directory containing the file
`a.txt` stored under id `uuidW4`. -/
def dbFile : DB :=
  ⟨[⟨uuidW1, "u1", "root", none⟩], [⟨uuidW1, uuidW1, 0⟩],
   [⟨uuidW4, "u1", uuidW1, "a.txt"⟩]⟩

/-- A filesystem where the root directory exists but the bytes of `uuidW4`
are missing (metadata / disk drift). -/
def fsNoBytes : FS := ⟨[[uuidW1], []], []⟩

/-- A filesystem where the bytes of `uuidW4` are present with size 10. -/
def fsBytes : FS := ⟨[[uuidW1], []], [([uuidW1, uuidW4], 10)]⟩

/-- A fixture file id (valid UUID syntax). -/
def uuidW6 : String := "00000000-0000-0000-0000-000000000006"

/-- A fixture file id (valid UUID syntax). -/
def uuidW7 : String := "00000000-0000-0000-0000-000000000007"

/-- A three-file batch in which the second file duplicates the name of the
already-stored `a.txt` of `dbFile`; all transactions commit. -/
def itemsW : List BatchItem :=
  [⟨⟨"b.txt", 5, false, false⟩, uuidW5, false⟩,
   ⟨⟨"a.txt", 7, false, false⟩, uuidW6, false⟩,
   ⟨⟨"c.txt", 9, false, false⟩, uuidW7, false⟩]

/-- The results of the `itemsW` batch on `dbFile` / `fsNoBytes`: the duplicate
`a.txt` fails with the conflict domain error (carrying its name and size), the
other two files succeed. -/
def resultsW : List BatchSave :=
  [⟨⟨uuidW5, "u1", uuidW1, "b.txt", "/b.txt", 5, [uuidW1, uuidW5]⟩, none⟩,
   ⟨⟨"", "", "", "a.txt", "", 7, []⟩, some (.fileNameTaken "a.txt" uuidW1)⟩,
   ⟨⟨uuidW7, "u1", uuidW1, "c.txt", "/c.txt", 9, [uuidW1, uuidW7]⟩, none⟩]

/-! ### Helper lemmas about the store operations -/

/-- `find?` skips a block in which nothing matches. -/
theorem find?_append_of_none {α : Type} (p : α → Bool) {l₁ : List α} (l₂ : List α)
    (h : l₁.find? p = none) : (l₁ ++ l₂).find? p = l₂.find? p := by
  induction l₁ with
  | nil => rfl
  | cons a t ih =>
    by_cases hpa : p a
    · rw [List.find?_cons_of_pos _ hpa] at h; cases h
    · rw [List.find?_cons_of_neg _ hpa] at h
      rw [List.cons_append, List.find?_cons_of_neg _ hpa]
      exact ih h

/-- A successful `InsertDirectory` appends exactly the new row. -/
theorem insertDirectory_ok (db : DB) (c : DirRow) (db1 : DB)
    (h : insertDirectory db c = .ok db1) :
    db1 = { db with directories := db.directories ++ [c] } := by
  unfold insertDirectory at h
  split at h <;> (repeat' split at h) <;> simp_all

/-- A successful `InsertDirectory` of a null-parent row found no conflicting
root row (the partial unique constraint held). -/
theorem insertDirectory_ok_root_unique (db : DB) (c : DirRow) (db1 : DB)
    (hp : c.parentID = none) (h : insertDirectory db c = .ok db1) :
    db.directories.any
      (fun r => r.userID == c.userID && r.parentID == none && r.name == c.name) = false := by
  unfold insertDirectory at h
  rw [hp] at h
  repeat' split at h
  all_goals simp_all

/-- A successful `InsertDirectory` of a non-null-parent row found no sibling
with the same `(parent_id, name)`. -/
theorem insertDirectory_ok_sibling_unique (db : DB) (c : DirRow) (db1 : DB) (p : String)
    (hp : c.parentID = some p) (h : insertDirectory db c = .ok db1) :
    db.directories.any
      (fun r => r.parentID == some p && r.name == c.name) = false := by
  unfold insertDirectory at h
  rw [hp] at h
  repeat' split at h
  all_goals simp_all

/-- A successful `InsertDirectory` found no row already using the new id (the
primary key held). -/
theorem insertDirectory_ok_id_fresh (db : DB) (c : DirRow) (db1 : DB)
    (h : insertDirectory db c = .ok db1) :
    db.directories.any (fun r => r.id == c.id) = false := by
  unfold insertDirectory at h
  split at h <;> (repeat' split at h) <;> simp_all

/-- A successful `InsertDirectory` of a non-null-parent row found the parent
row (the foreign key held). -/
theorem insertDirectory_ok_fk (db : DB) (c : DirRow) (db1 : DB) (p : String)
    (hp : c.parentID = some p) (h : insertDirectory db c = .ok db1) :
    db.directories.any (fun r => r.id == p) = true := by
  unfold insertDirectory at h
  rw [hp] at h
  repeat' split at h
  all_goals simp_all [List.all_eq_true, List.any_eq_true]

/-- A successful `InsertSelfPath` appends exactly the self edge. -/
theorem insertSelfPath_ok (db : DB) (id : String) (db1 : DB)
    (h : insertSelfPath db id = .ok db1) :
    db1 = { db with paths := db.paths ++ [⟨id, id, 0⟩] } := by
  unfold insertSelfPath at h
  split at h
  · cases h
  · cases h; rfl

/-- A successful `InsertParentPaths` appends exactly the copied-and-shifted
ancestry rows of the parent. -/
theorem insertParentPaths_ok (db : DB) (parentID childID : String) (db1 : DB)
    (h : insertParentPaths db parentID childID = .ok db1) :
    db1 = { db with paths := db.paths ++ shiftedRows db.paths parentID childID } := by
  unfold insertParentPaths at h
  repeat' split at h
  all_goals simp_all

/-- Elimination for a successful `IO.NewDir`: the final database extends the
initial one by the new directory row and the new ancestry rows, the files
table is untouched, and the returned `DirIO` is built from the new id and the
staged ancestry. -/
theorem newDir_ok (pm : PathMapper) (db : DB) (fs : FS) (d : NewDirIo)
    (db1 : DB) (fs1 : FS) (dir : DirIo)
    (h : Io.newDir pm db fs d = .ok (db1, fs1, dir)) :
    db1.directories = db.directories ++ [⟨d.id, d.userID, d.name, d.parentID⟩]
    ∧ db1.files = db.files
    ∧ dir = ⟨d.id, d.userID, d.name, d.parentID.getD "",
             pm.getDirFS db1 d.id, PathMapper.getDir db1 d.id⟩
    ∧ fs.mkdir (pm.getDirFS db1 d.id) = .ok fs1
    ∧ ((d.parentID = none ∧ db1.paths = db.paths ++ [⟨d.id, d.id, 0⟩])
       ∨ (∃ p, d.parentID = some p ∧
            db1.paths = (db.paths ++ [⟨d.id, d.id, 0⟩]) ++
              shiftedRows (db.paths ++ [⟨d.id, d.id, 0⟩]) p d.id)) := by
  unfold Io.newDir at h
  split at h
  · cases h
  rename_i dbA h1
  split at h
  · cases h
  rename_i dbB h2
  split at h
  · cases h
  rename_i dbC h3
  split at h
  · cases h
  rename_i fsB h4
  cases h
  cases hpid : d.parentID with
  | none =>
    rw [hpid] at h1 h3
    cases h3
    have hA := insertDirectory_ok db _ _ h1
    have hB := insertSelfPath_ok dbA d.id _ h2
    subst hA; subst hB
    exact ⟨by simp, by simp, by simp, h4, Or.inl ⟨rfl, by simp⟩⟩
  | some p =>
    rw [hpid] at h1 h3
    have hA := insertDirectory_ok db _ _ h1
    have hB := insertSelfPath_ok dbA d.id _ h2
    have hC := insertParentPaths_ok _ p d.id _ h3
    subst hA; subst hB; subst hC
    exact ⟨by simp, by simp, by simp, h4, Or.inr ⟨p, rfl, by simp⟩⟩

/-- `IO.NewDir` succeeded only if the directory-row insert itself succeeded. -/
theorem newDir_ok_insert (pm : PathMapper) (db : DB) (fs : FS) (d : NewDirIo)
    (db1 : DB) (fs1 : FS) (dir : DirIo)
    (h : Io.newDir pm db fs d = .ok (db1, fs1, dir)) :
    ∃ dbA, insertDirectory db ⟨d.id, d.userID, d.name, d.parentID⟩ = .ok dbA := by
  unfold Io.newDir at h
  split at h
  · cases h
  rename_i dbA h1
  exact ⟨dbA, h1⟩

/-- Inserting into a descending-depth list is a permutation of consing. -/
theorem insertDepthDesc_perm (r : PathRow) (l : List PathRow) :
    (insertDepthDesc r l).Perm (r :: l) := by
  induction l with
  | nil => exact .refl _
  | cons x xs ih =>
    unfold insertDepthDesc
    split
    · exact .refl _
    · exact (ih.cons x).trans (List.Perm.swap r x xs)

/-- The descending-depth sort is a permutation of its input. -/
theorem sortDepthDesc_perm (l : List PathRow) : (sortDepthDesc l).Perm l := by
  induction l with
  | nil => exact .refl _
  | cons x xs ih =>
    unfold sortDepthDesc at *
    exact (insertDepthDesc_perm x _).trans (ih.cons x)

/-- `filterMap` keeps the length when the function succeeds on every element. -/
theorem filterMap_length_of_all_isSome {α β : Type} (f : α → Option β) (l : List α)
    (h : ∀ x ∈ l, (f x).isSome) : (l.filterMap f).length = l.length := by
  induction l with
  | nil => rfl
  | cons x xs ih =>
    rcases Option.isSome_iff_exists.mp (h x (by simp)) with ⟨b, hb⟩
    rw [List.filterMap_cons, hb]
    simp [ih (fun y hy => h y (by simp [hy]))]

/-- `Option.map` keeps definedness. -/
theorem isSome_map {α β : Type} (f : α → β) (o : Option α) :
    (o.map f).isSome = o.isSome := by cases o <;> rfl

/-- `find?` succeeds when some member satisfies the predicate. -/
theorem find?_isSome_of_mem {α : Type} (p : α → Bool) (l : List α) (x : α)
    (hx : x ∈ l) (hpx : p x = true) : (l.find? p).isSome := by
  induction l with
  | nil => cases hx
  | cons a t ih =>
    by_cases hpa : p a
    · rw [List.find?_cons_of_pos _ hpa]; rfl
    · rw [List.find?_cons_of_neg _ hpa]
      rcases List.mem_cons.mp hx with h | h
      · subst h; exact absurd hpx (by simpa using hpa)
      · exact ih h

/-- Both path reconstructions have one segment per ancestry row when every
row's ancestor has a directory row. -/
theorem selectPath_lengths (db1 : DB) (id : String)
    (h : ∀ r ∈ db1.paths.filter (fun r => r.childID == id),
           (db1.directories.find? (fun dr => dr.id == r.parentID)).isSome) :
    (selectDirectoryPath db1 id).length
        = (db1.paths.filter (fun r => r.childID == id)).length
    ∧ (selectDirectoryFSPath db1 id).length
        = (db1.paths.filter (fun r => r.childID == id)).length := by
  constructor
  · unfold selectDirectoryPath selectAncestorRows
    rw [filterMap_length_of_all_isSome]
    · exact (sortDepthDesc_perm _).length_eq
    · intro x hx
      rw [isSome_map]
      exact h x ((sortDepthDesc_perm _).mem_iff.mp hx)
  · unfold selectDirectoryFSPath selectAncestorRows
    rw [filterMap_length_of_all_isSome]
    · exact (sortDepthDesc_perm _).length_eq
    · intro x hx
      rw [isSome_map]
      exact h x ((sortDepthDesc_perm _).mem_iff.mp hx)

/-! ### Claims -/

/-- C1: a directory-creation request that fails with a relational constraint
violation (duplicate sibling name, dangling parent reference, or invalid
parent id) is rejected before any filesystem mutation: `writeDir` returns the
mapped domain error with the filesystem unchanged and no compensating deletion
scheduled, because `Mkdir` is sequenced after all relational staging. -/
theorem claim_C1 (pm : PathMapper) (db : DB) (fs : FS)
    (userID name parentID newID : String) (commitFails : Bool)
    (h : (DirService.write pm db fs userID name parentID newID commitFails).res
           = .error (.dirNameTaken name parentID)
       ∨ (DirService.write pm db fs userID name parentID newID commitFails).res
           = .error (.parentNotFound parentID)
       ∨ (DirService.write pm db fs userID name parentID newID commitFails).res
           = .error (.invalidParentID parentID)) :
    (DirService.write pm db fs userID name parentID newID commitFails).fs = fs
    ∧ (DirService.write pm db fs userID name parentID newID commitFails).cleanups = [] := by
  cases hnd : Io.newDir pm db fs
      ⟨newID, userID, name, if parentID = "" then none else some parentID⟩ with
  | error e => simp [DirService.write, hnd]
  | ok val =>
    obtain ⟨db1, fs1, dir⟩ := val
    simp only [DirService.write, hnd] at h
    cases commitFails <;> simp_all

/-- C4: when the transaction commit fails after the physical directory was
already created, `writeDir` schedules the detached compensating deletion of
exactly the just-created physical path, rolls the relational writes back, and
still returns the commit failure to the caller as an error — the cleanup never
converts the failed creation into a success. -/
theorem claim_C4 (pm : PathMapper) (db : DB) (fs : FS)
    (userID name parentID newID : String) (db1 : DB) (fs1 : FS) (dir : DirIo)
    (h : Io.newDir pm db fs
          ⟨newID, userID, name, if parentID = "" then none else some parentID⟩
          = .ok (db1, fs1, dir)) :
    DirService.write pm db fs userID name parentID newID true =
      ⟨.error .commitTx, db, fs1, [dir.fsPath]⟩ := by
  simp [DirService.write, h]

/-- C9: a directory id with no ancestry rows — in particular any nonexistent
id — resolves through `GetDir` to `"/"` with no error: the empty name list
joins to the empty string, which is returned as the root path, so an unknown
id is indistinguishable from the user's root. -/
theorem claim_C9 (db : DB) (id : String)
    (h : db.paths.filter (fun r => r.childID == id) = []) :
    PathMapper.getDir db id = "/" := by
  unfold PathMapper.getDir selectDirectoryPath selectAncestorRows
  rw [h]
  rfl

/-- Witness for C1: creating a second `docs` under the same parent is rejected
with the duplicate-name domain error and leaves the filesystem untouched. -/
theorem claim_C1_witness :
    (DirService.write pmW dbDocs fsDocs "u1" "docs" uuidW1 uuidW3 false).res
      = .error (.dirNameTaken "docs" uuidW1)
  ∧ (DirService.write pmW dbDocs fsDocs "u1" "docs" uuidW1 uuidW3 false).fs = fsDocs
  ∧ (DirService.write pmW dbDocs fsDocs "u1" "docs" uuidW1 uuidW3 false).cleanups = [] :=
  ⟨by decide,
   (claim_C1 pmW dbDocs fsDocs "u1" "docs" uuidW1 uuidW3 false (Or.inl (by decide))).1,
   (claim_C1 pmW dbDocs fsDocs "u1" "docs" uuidW1 uuidW3 false (Or.inl (by decide))).2⟩

/-- Witness for C4: with the staging of `notes` successful and the physical
directory created, a failing commit yields the commit error, a rolled-back
database, the surviving on-disk directory, and a scheduled deletion of exactly
that directory's path. -/
theorem claim_C4_witness :
    Io.newDir pmW dbDocs fsDocs
        ⟨uuidW3, "u1", "notes", if uuidW2 = "" then none else some uuidW2⟩
      = .ok (dbNotes, fsNotes, dirNotes)
  ∧ DirService.write pmW dbDocs fsDocs "u1" "notes" uuidW2 uuidW3 true
      = ⟨.error .commitTx, dbDocs, fsNotes, [dirNotes.fsPath]⟩ :=
  ⟨by decide,
   claim_C4 pmW dbDocs fsDocs "u1" "notes" uuidW2 uuidW3 dbNotes fsNotes dirNotes
     (by decide)⟩

/-- C8 (amended): `Info` fetches the ownership-scoped file row, failing with
the 404 NotFound domain error when the row is absent, and stats the physical
file for its live size. When the row exists but the bytes are missing from
the filesystem, `Info` does fail — but with the raw stat not-exist path error
passed through unchanged, not with the NotFound domain error (only
`sql.ErrNoRows` is mapped to NotFound). -/
theorem claim_C8 (pm : PathMapper) (db : DB) (fs : FS) (userID fileID : String) :
    (selectFileByIDUser db fileID userID = none →
       FileService.Info pm db fs userID fileID = .error (.fileNotFound fileID))
  ∧ (∀ row, selectFileByIDUser db fileID userID = some row →
       (∀ e, fs.stat (pm.getFileFS db row.directoryID row.id) = .error e →
          FileService.Info pm db fs userID fileID = .error e
          ∧ e.isFileNotFound = false)
     ∧ (∀ n, fs.stat (pm.getFileFS db row.directoryID row.id) = .ok n →
          FileService.Info pm db fs userID fileID =
            .ok ⟨row.id, row.userID, row.directoryID, row.name,
                 PathMapper.getFile db row.directoryID row.name, n,
                 pm.getFileFS db row.directoryID row.id⟩)) := by
  refine ⟨fun hnone => ?_, fun row hrow => ⟨fun e he => ?_, fun n hn => ?_⟩⟩
  · simp [FileService.Info, Io.readFileInfo, hnone]
  · have he' : e = .fsNotExist := by
      unfold FS.stat at he
      split at he
      · cases he
      · split at he
        · cases he
        · cases he; rfl
    subst he'
    refine ⟨?_, rfl⟩
    simp [FileService.Info, Io.readFileInfo, hrow, he]
  · simp [FileService.Info, Io.readFileInfo, hrow, hn]

/-- Counterexample for C8 as stated: in `dbFile` the row of `a.txt` exists
and its bytes are missing from `fsNoBytes`, yet `Info` returns the raw
not-exist path error, which is not the NotFound domain error. -/
theorem claim_C8_cex :
    selectFileByIDUser dbFile uuidW4 "u1" = some ⟨uuidW4, "u1", uuidW1, "a.txt"⟩
  ∧ FS.stat fsNoBytes (pmW.getFileFS dbFile uuidW1 uuidW4) = .error .fsNotExist
  ∧ FileService.Info pmW dbFile fsNoBytes "u1" uuidW4 = .error .fsNotExist
  ∧ Err.isFileNotFound .fsNotExist = false := by decide

/-- Witness for C8: with the row present and the bytes on disk, `Info`
returns the file info carrying the live size read from the filesystem. -/
theorem claim_C8_witness :
    FileService.Info pmW dbFile fsBytes "u1" uuidW4 =
      .ok ⟨uuidW4, "u1", uuidW1, "a.txt", "/a.txt", 10, [uuidW1, uuidW4]⟩ :=
  ((claim_C8 pmW dbFile fsBytes "u1" uuidW4).2 ⟨uuidW4, "u1", uuidW1, "a.txt"⟩
    (by decide)).2 10 (by decide)

/-- Elimination for a successful `writeDir`: the commit succeeded, `IO.NewDir`
succeeded, and the outcome is the staged state with the built `Dir` value. -/
theorem write_ok (pm : PathMapper) (db : DB) (fs : FS)
    (userID name parentID newID : String) (cf : Bool) (d : Dir)
    (h : (DirService.write pm db fs userID name parentID newID cf).res = .ok d) :
    cf = false ∧ ∃ db1 fs1 dir,
      Io.newDir pm db fs
          ⟨newID, userID, name, if parentID = "" then none else some parentID⟩
        = .ok (db1, fs1, dir)
      ∧ d = ⟨dir.id, dir.userID, dir.name, dir.userPath⟩
      ∧ DirService.write pm db fs userID name parentID newID cf = ⟨.ok d, db1, fs1, []⟩ := by
  cases hnd : Io.newDir pm db fs
      ⟨newID, userID, name, if parentID = "" then none else some parentID⟩ with
  | error e => simp [DirService.write, hnd] at h
  | ok val =>
    obtain ⟨db1, fs1, dir⟩ := val
    cases cf with
    | true => simp [DirService.write, hnd] at h
    | false =>
      simp only [DirService.write, hnd, Bool.false_eq_true, if_false] at h ⊢
      refine ⟨by simp, db1, fs1, dir, rfl, ?_, ?_⟩
      · cases h; rfl
      · cases h; rfl

/-- C2: a directory created by the creation primitive at depth `N` below the
user's root (root itself at depth 0) has exactly `N + 1` ancestry rows as
descendant, one per depth `0..N`: the self-edge insert contributes the depth-0
row and the copy-and-increment of the parent's ancestry contributes exactly
one row per ancestor; consequently both path reconstructions
(`SelectDirectoryPath` behind `ResolveUserPath`, `SelectDirectoryFSPath`
behind `ResolveFilesystemPath`) have exactly `N + 1` segments. The hypotheses
state the pre-call invariant: the new id has no stale ancestry rows, and the
parent (when present) has one row per depth `0..N-1`, each of whose ancestors
has a directory row. -/
theorem claim_C2 (pm : PathMapper) (db : DB) (fs : FS) (d : NewDirIo)
    (db1 : DB) (fs1 : FS) (dir : DirIo) (N : Nat)
    (hok : Io.newDir pm db fs d = .ok (db1, fs1, dir))
    (hfresh : db.paths.filter (fun r => r.childID == d.id) = [])
    (hparent : (d.parentID = none ∧ N = 0)
             ∨ (∃ p, d.parentID = some p
                 ∧ ((db.paths.filter (fun r => r.childID == p)).map PathRow.depth).Perm
                     (List.range N)
                 ∧ ∀ r ∈ db.paths.filter (fun r => r.childID == p),
                     (db.directories.find? (fun dr => dr.id == r.parentID)).isSome)) :
    ((db1.paths.filter (fun r => r.childID == d.id)).map PathRow.depth).Perm
        (List.range (N + 1))
    ∧ (selectDirectoryPath db1 d.id).length = N + 1
    ∧ (selectDirectoryFSPath db1 d.id).length = N + 1 := by
  obtain ⟨hdirs, hfiles, hdirval, hmk, hpaths⟩ := newDir_ok pm db fs d db1 fs1 dir hok
  have main : ((db1.paths.filter (fun r => r.childID == d.id)).map PathRow.depth).Perm
        (List.range (N + 1))
      ∧ ∀ r ∈ db1.paths.filter (fun r => r.childID == d.id),
          (db1.directories.find? (fun dr => dr.id == r.parentID)).isSome := by
    rcases hpaths with ⟨hpid, hpeq⟩ | ⟨p, hpid, hpeq⟩
    · -- root creation: only the self edge
      rcases hparent with ⟨_, hN⟩ | ⟨p, hps, _⟩
      · subst hN
        have hfilter : db1.paths.filter (fun r => r.childID == d.id)
            = [PathRow.mk d.id d.id 0] := by
          rw [hpeq, List.filter_append, hfresh]
          simp
        constructor
        · rw [hfilter]
          simp [List.range_succ]
        · intro r hr
          rw [hfilter] at hr
          rcases List.mem_singleton.mp hr with rfl
          exact find?_isSome_of_mem _ _ ⟨d.id, d.userID, d.name, d.parentID⟩
            (by rw [hdirs]; simp) (by simp)
      · rw [hpid] at hps; cases hps
    · -- sub directory: self edge plus the shifted parent ancestry
      rcases hparent with ⟨hps, _⟩ | ⟨p', hps, hPerm, hanc⟩
      · rw [hpid] at hps; cases hps
      rw [hpid] at hps
      cases hps
      obtain ⟨dbA, hins⟩ := newDir_ok_insert pm db fs d db1 fs1 dir hok
      have hfk := insertDirectory_ok_fk db _ dbA p hpid hins
      have hpk := insertDirectory_ok_id_fresh db _ dbA hins
      have hne : d.id ≠ p := by
        intro heq
        subst heq
        rw [hpk] at hfk
        cases hfk
      have hneb : (d.id == p) = false := by simpa using hne
      have hfilterP : (db.paths ++ [PathRow.mk d.id d.id 0]).filter
          (fun r => r.childID == p) = db.paths.filter (fun r => r.childID == p) := by
        rw [List.filter_append]
        simp [hneb]
      have hshift : shiftedRows (db.paths ++ [PathRow.mk d.id d.id 0]) p d.id
          = shiftedRows db.paths p d.id := by
        unfold shiftedRows
        rw [hfilterP]
      have hfiltershift : (shiftedRows db.paths p d.id).filter
          (fun r => r.childID == d.id) = shiftedRows db.paths p d.id := by
        apply List.filter_eq_self.mpr
        intro a ha
        unfold shiftedRows at ha
        rcases List.mem_map.mp ha with ⟨r, hr, rfl⟩
        simp
      have hfilter : db1.paths.filter (fun r => r.childID == d.id)
          = PathRow.mk d.id d.id 0 :: shiftedRows db.paths p d.id := by
        rw [hpeq, hshift, List.filter_append, List.filter_append, hfresh, hfiltershift]
        simp
      constructor
      · rw [hfilter, List.map_cons]
        have hmapdepth : (shiftedRows db.paths p d.id).map PathRow.depth
            = ((db.paths.filter (fun r => r.childID == p)).map PathRow.depth).map
                (· + 1) := by
          unfold shiftedRows
          rw [List.map_map, List.map_map]
          rfl
        rw [hmapdepth, List.range_succ_eq_map]
        simp only [Nat.succ_eq_add_one]
        exact (hPerm.map (· + 1)).cons 0
      · intro r hr
        rw [hfilter] at hr
        rcases List.mem_cons.mp hr with rfl | hr
        · exact find?_isSome_of_mem _ _ ⟨d.id, d.userID, d.name, d.parentID⟩
            (by rw [hdirs]; simp) (by simp)
        · unfold shiftedRows at hr
          rcases List.mem_map.mp hr with ⟨r0, hr0, rfl⟩
          rcases Option.isSome_iff_exists.mp (hanc r0 hr0) with ⟨dr, hdr⟩
          have hdrmem : dr ∈ db.directories := List.mem_of_find?_eq_some hdr
          have hdrp := List.find?_some hdr
          exact find?_isSome_of_mem _ _ dr
            (by rw [hdirs]; exact List.mem_append_left _ hdrmem) (by simpa using hdrp)
  have hsl := selectPath_lengths db1 d.id main.2
  have hlen : (db1.paths.filter (fun r => r.childID == d.id)).length = N + 1 := by
    have h1 := main.1.length_eq
    simpa using h1
  exact ⟨main.1, by rw [hsl.1, hlen], by rw [hsl.2, hlen]⟩

/-- Witness for C2: creating `notes` at depth 2 under `/docs` yields three
ancestry rows with depths a permutation of `0, 1, 2`, and both path
reconstructions have three segments. -/
theorem claim_C2_witness :
    Io.newDir pmW dbDocs fsDocs ⟨uuidW3, "u1", "notes", some uuidW2⟩
      = .ok (dbNotes, fsNotes, dirNotes)
  ∧ dbDocs.paths.filter (fun r => r.childID == uuidW3) = []
  ∧ (((dbNotes.paths.filter (fun r => r.childID == uuidW3)).map PathRow.depth).Perm
        (List.range (2 + 1))
     ∧ (selectDirectoryPath dbNotes uuidW3).length = 2 + 1
     ∧ (selectDirectoryFSPath dbNotes uuidW3).length = 2 + 1) :=
  ⟨by decide, by decide,
   claim_C2 pmW dbDocs fsDocs ⟨uuidW3, "u1", "notes", some uuidW2⟩
     dbNotes fsNotes dirNotes 2 (by decide) (by decide)
     (Or.inr ⟨uuidW2, rfl, by decide, by decide⟩)⟩

/-- Composing the `FindDir` walk: after a successful walk of a first segment
block, the loop continues from the reached directory with the consumed
segments accumulated. -/
theorem findDirLoop_append (db : DB) (userID : String) (l₁ l₂ : List String) :
    ∀ start pre idD, findDirLoop db userID start pre l₁ = .ok idD →
      findDirLoop db userID start pre (l₁ ++ l₂)
        = findDirLoop db userID idD (pre ++ l₁) l₂ := by
  induction l₁ with
  | nil =>
    intro start pre idD h
    cases h
    simp
  | cons s t ih =>
    intro start pre idD h
    simp only [findDirLoop, List.cons_append] at h ⊢
    split at h
    · rename_i dirr hsel
      simp only [hsel, List.append_eq]
      rw [ih _ _ _ h]
      simp
    · cases h

/-- C7: when some segment of the path has no matching directory by
`(owner, name, parent)`, `FindDir` fails at the first such segment with the
NotFound domain error naming that segment (and joining the consumed segments
for the safe message). `FindDir` performs only `SELECT`s: its embedding is a
pure function of the database, so no directory is ever created as a side
effect and intermediate directories are never auto-created. -/
theorem claim_C7 (db : DB) (userID rootID pathStr : String)
    (done : List String) (seg : String) (rest : List String) (idD : String)
    (hsegs : pathSegs pathStr = done ++ seg :: rest)
    (hwalk : findDirLoop db userID rootID [] done = .ok idD)
    (hmiss : selectDirectoryByUserNameParent db userID seg idD = none) :
    PathMapper.findDir db ⟨userID, rootID, pathStr⟩
      = .error (.dirSegmentNotFound seg (joinSlash (done ++ [seg]))) := by
  unfold PathMapper.findDir
  rw [hsegs, findDirLoop_append db userID done (seg :: rest) rootID [] idD hwalk]
  unfold findDirLoop
  rw [hmiss]
  simp

/-- Witness for C7: in `dbDocs` the path `/docs/missing/x` fails at
`missing`, the first segment with no match, and the error names it. -/
theorem claim_C7_witness :
    pathSegs "/docs/missing/x" = ["docs"] ++ "missing" :: ["x"]
  ∧ findDirLoop dbDocs "u1" uuidW1 [] ["docs"] = .ok uuidW2
  ∧ selectDirectoryByUserNameParent dbDocs "u1" "missing" uuidW2 = none
  ∧ PathMapper.findDir dbDocs ⟨"u1", uuidW1, "/docs/missing/x"⟩
      = .error (.dirSegmentNotFound "missing" (joinSlash (["docs"] ++ ["missing"]))) :=
  ⟨by decide, by decide, by decide,
   claim_C7 dbDocs "u1" uuidW1 "/docs/missing/x" ["docs"] "missing" ["x"] uuidW2
     (by decide) (by decide) (by decide)⟩

/-- `find?` is decided by the first block when it matches there. -/
theorem find?_append_of_some {α : Type} (p : α → Bool) {l₁ : List α} (l₂ : List α)
    {x : α} (h : l₁.find? p = some x) : (l₁ ++ l₂).find? p = some x := by
  induction l₁ with
  | nil => cases h
  | cons a t ih =>
    by_cases hpa : p a
    · rw [List.find?_cons_of_pos _ hpa] at h
      rw [List.cons_append, List.find?_cons_of_pos _ hpa]
      exact h
    · rw [List.find?_cons_of_neg _ hpa] at h
      rw [List.cons_append, List.find?_cons_of_neg _ hpa]
      exact ih h

/-- Every id the `NewDirPath` walk returns is the start id or the id of some
directory row. -/
theorem newDirPathLoop_mem (db : DB) (u : String) :
    ∀ segs (start y : String), newDirPathLoop db u start segs = .ok y →
      y = start ∨ ∃ r ∈ db.directories, y = r.id := by
  intro segs
  induction segs with
  | nil =>
    intro start y h
    cases h
    exact Or.inl rfl
  | cons s t ih =>
    intro start y h
    simp only [newDirPathLoop] at h
    split at h
    · rename_i dirr hsel
      rcases ih _ _ h with rfl | hr
      · exact Or.inr ⟨dirr, List.mem_of_find?_eq_some hsel, rfl⟩
      · exact Or.inr hr
    · cases h

/-- Walk stability: a `NewDirPath` lookup walk that succeeded on the old
database reaches the same id as the `FindDir` walk on the database extended
with the appended new row. -/
theorem findDirLoop_stable (dbOld : DB) (newRow : DirRow) (u : String)
    (db1 : DB) (hdb1 : db1.directories = dbOld.directories ++ [newRow]) :
    ∀ segs (start : String) (pre : List String) (y : String),
      newDirPathLoop dbOld u start segs = .ok y →
      findDirLoop db1 u start pre segs = .ok y := by
  intro segs
  induction segs with
  | nil =>
    intro start pre y h
    cases h
    rfl
  | cons s t ih =>
    intro start pre y h
    simp only [newDirPathLoop] at h
    split at h
    · rename_i dirr hsel
      have hsel1 : selectDirectoryByUserNameParent db1 u s start = some dirr := by
        unfold selectDirectoryByUserNameParent at hsel ⊢
        rw [hdb1]
        exact find?_append_of_some _ _ hsel
      simp only [findDirLoop, hsel1]
      exact ih _ _ _ h
    · cases h

/-- C6 (amended): round-trip of create-by-path and find, for a `name` that is
a single path segment — formally, `p ++ "/" ++ name` parses as the segments of
`p` followed by the one extra segment `name` (true whenever `name` is
nonempty, contains no slash, and is not `"."` or `".."`). After a successful
`NewDirPath`, `FindDir` on the extended path returns the id of the directory
just created. The remaining hypotheses are the reachability invariant that
directory ids are nonempty (they are UUIDs). -/
theorem claim_C6 (pm : PathMapper) (db : DB) (fs : FS)
    (userID name p : String) (env : DirEnv) (dnew root : Dir)
    (hok : (Service.NewDirPath pm db fs userID name p env).res = .ok dnew)
    (hroot : (DirService.validateUserDir pm db fs userID env.rootID
        env.rootCommitFails).res = .ok root)
    (hsegs : pathSegs (p ++ "/" ++ name) = pathSegs p ++ [name])
    (hrootne : root.ID ≠ "")
    (hids : ∀ r ∈ (DirService.validateUserDir pm db fs userID env.rootID
        env.rootCommitFails).db.directories, r.id ≠ "") :
    PathMapper.findDir (Service.NewDirPath pm db fs userID name p env).db
        ⟨userID, root.ID, p ++ "/" ++ name⟩
      = .ok dnew.ID := by
  by_cases hname : name = ""
  · rw [hname] at hok
    simp [Service.NewDirPath] at hok
  simp only [Service.NewDirPath, if_neg hname, hroot] at hok ⊢
  set v := DirService.validateUserDir pm db fs userID env.rootID env.rootCommitFails
    with hv
  cases hloop : newDirPathLoop v.db userID root.ID (pathSegs p) with
  | error e => rw [hloop] at hok; simp at hok
  | ok parentID =>
    rw [hloop] at hok
    dsimp only at hok ⊢
    have hpne : parentID ≠ "" := by
      rcases newDirPathLoop_mem v.db userID (pathSegs p) root.ID parentID hloop with
        rfl | ⟨r, hr, rfl⟩
      · exact hrootne
      · exact hids r hr
    obtain ⟨hcf, db1, fs1, dir, hnd, hdnew, hw⟩ :=
      write_ok pm v.db v.fs userID name parentID env.dirID env.dirCommitFails dnew hok
    rw [hw]
    rw [if_neg hpne] at hnd
    obtain ⟨hdirs, _, hdirval, _, _⟩ := newDir_ok pm v.db v.fs _ db1 fs1 dir hnd
    obtain ⟨dbA, hins⟩ := newDir_ok_insert pm v.db v.fs _ db1 fs1 dir hnd
    have huniq := insertDirectory_ok_sibling_unique v.db _ dbA parentID rfl hins
    unfold PathMapper.findDir
    rw [hsegs, findDirLoop_append db1 userID (pathSegs p) [name] root.ID [] parentID
      (findDirLoop_stable v.db ⟨env.dirID, userID, name, some parentID⟩ userID db1
        hdirs (pathSegs p) root.ID [] parentID hloop)]
    have hfindnone : (v.db.directories.find?
        (fun r => r.userID == userID && r.name == name && r.parentID == some parentID))
        = none := by
      rw [List.find?_eq_none]
      intro x hx hpx
      have hx2 : (x.parentID == some parentID && x.name == name) = true := by
        simp at hpx ⊢
        exact ⟨hpx.2, hpx.1.2⟩
      have : v.db.directories.any
          (fun r => r.parentID == some parentID && r.name == name) = true :=
        List.any_eq_true.mpr ⟨x, hx, hx2⟩
      rw [huniq] at this
      cases this
    have hsel1 : selectDirectoryByUserNameParent db1 userID name parentID
        = some ⟨env.dirID, userID, name, some parentID⟩ := by
      unfold selectDirectoryByUserNameParent
      rw [hdirs, find?_append_of_none _ _ hfindnone]
      simp
    simp only [findDirLoop, hsel1]
    rw [hdnew, hdirval]

/-- Counterexample for C6 as stated: a `name` containing a slash. Creating the
directory literally named `a/b` under `/docs` succeeds, but `FindDirectory` on
`/docs` + `/` + `a/b` splits into three segments and fails NotFound at `a`
instead of returning the created id. -/
theorem claim_C6_cex :
    (Service.NewDirPath pmW dbDocs fsDocs "u1" "a/b" "/docs"
        ⟨uuidW4, false, uuidW3, false⟩).res
      = .ok ⟨uuidW3, "u1", "a/b", "/docs/a/b"⟩
  ∧ PathMapper.findDir
      (Service.NewDirPath pmW dbDocs fsDocs "u1" "a/b" "/docs"
        ⟨uuidW4, false, uuidW3, false⟩).db
      ⟨"u1", uuidW1, "/docs" ++ "/" ++ "a/b"⟩
      = .error (.dirSegmentNotFound "a" "docs/a") := by decide

/-- Witness for C6: creating `notes` under `/docs` and finding
`/docs` + `/` + `notes` returns the created id. -/
theorem claim_C6_witness :
    (Service.NewDirPath pmW dbDocs fsDocs "u1" "notes" "/docs"
        ⟨uuidW4, false, uuidW3, false⟩).res
      = .ok ⟨uuidW3, "u1", "notes", "/docs/notes"⟩
  ∧ PathMapper.findDir
      (Service.NewDirPath pmW dbDocs fsDocs "u1" "notes" "/docs"
        ⟨uuidW4, false, uuidW3, false⟩).db
      ⟨"u1", uuidW1, "/docs" ++ "/" ++ "notes"⟩
      = .ok (Dir.mk uuidW3 "u1" "notes" "/docs/notes").ID :=
  ⟨by decide,
   claim_C6 pmW dbDocs fsDocs "u1" "notes" "/docs" ⟨uuidW4, false, uuidW3, false⟩
     ⟨uuidW3, "u1", "notes", "/docs/notes"⟩ ⟨uuidW1, "u1", "root", "/"⟩
     (by decide) (by decide) (by decide) (by decide) (by decide)⟩

/-- C5: `ValidateUserDir` (`EnsureUserRoot`) is idempotent: after a successful
call returning root `d`, a second call for the same user returns a root with
the same directory id and changes nothing — no second root row is inserted,
no second physical root directory is created, and no cleanup is scheduled. -/
theorem claim_C5 (pm : PathMapper) (db : DB) (fs : FS)
    (userID rootID rootID2 : String) (cf cf2 : Bool) (d : Dir)
    (h : (DirService.validateUserDir pm db fs userID rootID cf).res = .ok d) :
    ∃ d2 : Dir,
      DirService.validateUserDir pm
          (DirService.validateUserDir pm db fs userID rootID cf).db
          (DirService.validateUserDir pm db fs userID rootID cf).fs
          userID rootID2 cf2
        = ⟨.ok d2,
           (DirService.validateUserDir pm db fs userID rootID cf).db,
           (DirService.validateUserDir pm db fs userID rootID cf).fs, []⟩
      ∧ d2.ID = d.ID := by
  cases hsel : selectUserRootDirectory db userID with
  | some row =>
    have h1 : DirService.validateUserDir pm db fs userID rootID cf =
        ⟨.ok ⟨row.id, row.userID, row.name, "/"⟩, db, fs, []⟩ := by
      simp [DirService.validateUserDir, hsel]
    rw [h1] at h
    cases h
    refine ⟨⟨row.id, row.userID, row.name, "/"⟩, ?_, rfl⟩
    rw [h1]
    simp [DirService.validateUserDir, hsel]
  | none =>
    cases hwres : (DirService.write pm db fs userID "root" "" rootID cf).res with
    | error e =>
      have h1 : (DirService.validateUserDir pm db fs userID rootID cf).res =
          .error (.rootStorageProblem e) := by
        simp [DirService.validateUserDir, hsel, hwres]
      rw [h1] at h
      cases h
    | ok d0 =>
      obtain ⟨hcf, db1, fs1, dir, hnd, hd0, hw⟩ :=
        write_ok pm db fs userID "root" "" rootID cf d0 hwres
      have h1 : DirService.validateUserDir pm db fs userID rootID cf =
          ⟨.ok d0, db1, fs1, []⟩ := by
        simp only [DirService.validateUserDir, hsel, hw, hwres]
      rw [h1] at h
      cases h
      have hnd' : Io.newDir pm db fs ⟨rootID, userID, "root", none⟩
          = .ok (db1, fs1, dir) := by simpa using hnd
      obtain ⟨hdirs, _, hdirval, _, _⟩ := newDir_ok pm db fs _ db1 fs1 dir hnd'
      have hselnone : db.directories.find?
          (fun r => r.parentID == none && r.name == "root" && r.userID == userID)
          = none := hsel
      have hsel2 : selectUserRootDirectory db1 userID
          = some ⟨rootID, userID, "root", none⟩ := by
        unfold selectUserRootDirectory
        rw [hdirs, find?_append_of_none _ _ hselnone]
        simp
      refine ⟨⟨rootID, userID, "root", "/"⟩, ?_, ?_⟩
      · rw [h1]
        simp [DirService.validateUserDir, hsel2]
      · rw [hd0, hdirval]

/-- Witness for C5: provisioning a root for a fresh user and calling
`ValidateUserDir` again returns the same id with no state change. -/
theorem claim_C5_witness :
    (DirService.validateUserDir pmW dbW fsW "u1" uuidW1 false).res
      = .ok ⟨uuidW1, "u1", "root", "/"⟩
  ∧ ∃ d2 : Dir,
      DirService.validateUserDir pmW
          (DirService.validateUserDir pmW dbW fsW "u1" uuidW1 false).db
          (DirService.validateUserDir pmW dbW fsW "u1" uuidW1 false).fs
          "u1" uuidW2 false
        = ⟨.ok d2,
           (DirService.validateUserDir pmW dbW fsW "u1" uuidW1 false).db,
           (DirService.validateUserDir pmW dbW fsW "u1" uuidW1 false).fs, []⟩
      ∧ d2.ID = (Dir.mk uuidW1 "u1" "root" "/").ID :=
  ⟨by decide, claim_C5 pmW dbW fsW "u1" uuidW1 uuidW2 false false _ (by decide)⟩

/-- Witness for C9: an id absent from the ancestry table resolves to `"/"`. -/
theorem claim_C9_witness :
    dbW.paths.filter (fun r => r.childID == uuidW4) = []
  ∧ PathMapper.getDir dbW uuidW4 = "/" :=
  ⟨rfl, claim_C9 dbW uuidW4 rfl⟩

/-- C10: a directory creation with an empty name — by parent or by path —
returns the empty-name domain error before touching any state: the database
and filesystem are unchanged and no transaction, row insert, physical write,
or root provisioning happens, even for a user whose root does not yet exist. -/
theorem claim_C10 (pm : PathMapper) (db : DB) (fs : FS)
    (userID parentID pathStr : String) (env : DirEnv) :
    Service.NewDir pm db fs userID "" parentID env = ⟨.error .emptyName, db, fs, []⟩
    ∧ Service.NewDirPath pm db fs userID "" pathStr env = ⟨.error .emptyName, db, fs, []⟩ :=
  ⟨rfl, rfl⟩

/-- A successful `FS.create` leaves the directory set unchanged. -/
theorem create_ok_dirs (fs : FS) (p : List String) (fs1 : FS)
    (h : fs.create p = .ok fs1) : fs1.dirs = fs.dirs := by
  unfold FS.create at h
  split at h
  · cases h
  · cases h; rfl

/-- Canonical case analysis of `IO.NewFile`: it either fails before the copy
with the filesystem unchanged, fails at the copy with the created empty file
on disk, or succeeds with the filled file, returning the `FileIO` built from
the header and the staged database. -/
theorem newFile_cases (pm : PathMapper) (db : DB) (fs : FS) (f : NewFileIo) :
    (∃ e, Io.newFile pm db fs f = (.error e, fs))
    ∨ (∃ db1 fsC,
        insertFile db ⟨f.id, f.userID, f.directoryID, f.header.filename⟩ = .ok db1
        ∧ fs.create (pm.getFileFS db1 f.directoryID f.id) = .ok fsC
        ∧ ((f.header.copyFails = true ∧ Io.newFile pm db fs f = (.error .copy, fsC))
           ∨ (f.header.copyFails = false ∧
              Io.newFile pm db fs f =
                (.ok (db1, ⟨f.id, f.userID, f.directoryID, f.header.filename,
                      pm.getFileFS db1 f.directoryID f.id,
                      PathMapper.getFile db1 f.directoryID f.header.filename,
                      f.header.size⟩),
                 fsC.writeSize (pm.getFileFS db1 f.directoryID f.id)
                   f.header.size)))) := by
  by_cases ho : f.header.openFails = true
  · exact Or.inl ⟨.openFile, by unfold Io.newFile; rw [if_pos ho]⟩
  · cases hins : insertFile db ⟨f.id, f.userID, f.directoryID, f.header.filename⟩ with
    | error e =>
      refine Or.inl ⟨e, ?_⟩
      unfold Io.newFile
      rw [if_neg ho, hins]
    | ok db1 =>
      cases hcre : fs.create (pm.getFileFS db1 f.directoryID f.id) with
      | error e =>
        refine Or.inl ⟨e, ?_⟩
        unfold Io.newFile
        rw [if_neg ho, hins]
        dsimp only
        rw [hcre]
      | ok fsC =>
        refine Or.inr ⟨db1, fsC, rfl, hcre, ?_⟩
        by_cases hcp : f.header.copyFails = true
        · refine Or.inl ⟨hcp, ?_⟩
          unfold Io.newFile
          rw [if_neg ho, hins]
          dsimp only
          rw [hcre]
          dsimp only
          rw [if_pos hcp]
        · refine Or.inr ⟨Bool.not_eq_true _ |>.mp hcp, ?_⟩
          unfold Io.newFile
          rw [if_neg ho, hins]
          dsimp only
          rw [hcre]
          dsimp only
          rw [if_neg hcp]

/-- `IO.NewFile` never touches the directory set: it only creates / fills
files. -/
theorem newFile_dirs (pm : PathMapper) (db : DB) (fs : FS) (f : NewFileIo) :
    (Io.newFile pm db fs f).2.dirs = fs.dirs := by
  rcases newFile_cases pm db fs f with ⟨e, heq⟩ | ⟨db1, fsC, hins, hcre, hcase⟩
  · rw [heq]
  · have hd := create_ok_dirs fs _ fsC hcre
    rcases hcase with ⟨_, heq⟩ | ⟨_, heq⟩
    · rw [heq]; exact hd
    · rw [heq]; simpa [FS.writeSize] using hd

/-- A successful `IO.NewFile` returns a `FileIO` carrying the original
filename and size from the header. -/
theorem newFile_ok_name_size (pm : PathMapper) (db : DB) (fs : FS) (f : NewFileIo)
    (db1 : DB) (file : FileIo) (fs1 : FS)
    (h : Io.newFile pm db fs f = (.ok (db1, file), fs1)) :
    file.name = f.header.filename ∧ file.size = f.header.size := by
  rcases newFile_cases pm db fs f with ⟨e, heq⟩ | ⟨db1', fsC, hins, hcre, hcase⟩
  · rw [heq] at h; simp at h
  · rcases hcase with ⟨_, heq⟩ | ⟨_, heq⟩
    · rw [heq] at h; simp at h
    · rw [heq] at h
      simp only [Prod.mk.injEq, Except.ok.injEq] at h
      obtain ⟨⟨hdb, hfile⟩, _⟩ := h
      subst hfile
      exact ⟨rfl, rfl⟩

/-- `FileService.write` always reports the original filename and byte size in
its `FileInfo`, whether the write succeeded or failed. -/
theorem fileWrite_name_size (pm : PathMapper) (db : DB) (fs : FS)
    (u dID : String) (hdr : FileHeader) (nid : String) (cf : Bool) :
    (FileService.write pm db fs u dID hdr nid cf).1.name = hdr.filename
    ∧ (FileService.write pm db fs u dID hdr nid cf).1.size = hdr.size := by
  unfold FileService.write
  cases hnf : Io.newFile pm db fs ⟨nid, u, dID, hdr⟩ with
  | mk r g =>
    cases r with
    | error e => simp
    | ok val =>
      obtain ⟨db1, file⟩ := val
      obtain ⟨hn, hs⟩ := newFile_ok_name_size pm db fs _ db1 file g hnf
      cases cf
      · simp [FileIo.fileInfo, hn, hs]
      · simp

/-- When a `FileService.write` fails, the relational writes are rolled back
and only files (never directories) may have been touched on disk. -/
theorem fileWrite_err_frame (pm : PathMapper) (db : DB) (fs : FS)
    (u dID : String) (hdr : FileHeader) (nid : String) (cf : Bool)
    (fi : FileInfo) (e : Err) (db' : DB) (fs' : FS) (cl : List (List String))
    (h : FileService.write pm db fs u dID hdr nid cf = (fi, some e, db', fs', cl)) :
    db' = db ∧ fs'.dirs = fs.dirs := by
  have hnfd := newFile_dirs pm db fs ⟨nid, u, dID, hdr⟩
  unfold FileService.write at h
  cases hnf : Io.newFile pm db fs ⟨nid, u, dID, hdr⟩ with
  | mk r g =>
    rw [hnf] at h hnfd
    cases r with
    | error e1 => constructor <;> simp_all
    | ok val =>
      obtain ⟨db1, file⟩ := val
      cases cf <;> simp_all

/-- `FS.create` depends on the filesystem only through its directory set:
on dirs-equal filesystems it fails identically or succeeds with dirs-equal
results. -/
theorem create_congr (fs₁ fs₂ : FS) (p : List String) (hdirs : fs₁.dirs = fs₂.dirs) :
    (∃ e, fs₁.create p = .error e ∧ fs₂.create p = .error e)
    ∨ (∃ fsC fsD, fs₁.create p = .ok fsC ∧ fs₂.create p = .ok fsD
        ∧ fsC.dirs = fsD.dirs) := by
  unfold FS.create
  rw [hdirs]
  by_cases hc : fs₂.dirs.contains p.dropLast
  · right
    refine ⟨_, _, if_neg (by simpa using hc), if_neg (by simpa using hc), rfl⟩
  · left
    exact ⟨.fsNotExist, if_pos (by simpa using hc), if_pos (by simpa using hc)⟩

/-- The observable outcome of `IO.NewFile` (result value and error) depends on
the filesystem only through its directory set, and the directory set of the
returned filesystem likewise. -/
theorem newFile_fst_dirs (pm : PathMapper) (db : DB) (f : NewFileIo) (fs₁ fs₂ : FS)
    (hdirs : fs₁.dirs = fs₂.dirs) :
    (Io.newFile pm db fs₁ f).1 = (Io.newFile pm db fs₂ f).1
    ∧ (Io.newFile pm db fs₁ f).2.dirs = (Io.newFile pm db fs₂ f).2.dirs := by
  unfold Io.newFile
  by_cases ho : f.header.openFails = true
  · simp only [if_pos ho]
    exact ⟨by simp, hdirs⟩
  simp only [if_neg ho]
  cases hins : insertFile db ⟨f.id, f.userID, f.directoryID, f.header.filename⟩ with
  | error e =>
    simp only [hins]
    exact ⟨by simp, hdirs⟩
  | ok db1 =>
    simp only [hins]
    try dsimp only
    rcases create_congr fs₁ fs₂ (pm.getFileFS db1 f.directoryID f.id) hdirs with
      ⟨e, h1, h2⟩ | ⟨fsC, fsD, h1, h2, hCD⟩
    · simp only [h1, h2]
      exact ⟨by simp, hdirs⟩
    · simp only [h1, h2]
      by_cases hcp : f.header.copyFails = true
      · simp only [if_pos hcp]
        exact ⟨by simp, hCD⟩
      · simp only [if_neg hcp]
        exact ⟨by simp, by simpa [FS.writeSize] using hCD⟩

/-- The observable outcome of `FileService.write` (its `FileInfo`, error,
database, scheduled cleanups, and the directory set of the filesystem) depends
on the filesystem only through its directory set. -/
theorem fileWrite_dirs_congr (pm : PathMapper) (db : DB) (u dID : String)
    (hdr : FileHeader) (nid : String) (cf : Bool) (fs₁ fs₂ : FS)
    (hdirs : fs₁.dirs = fs₂.dirs) :
    (FileService.write pm db fs₁ u dID hdr nid cf).1
      = (FileService.write pm db fs₂ u dID hdr nid cf).1
    ∧ (FileService.write pm db fs₁ u dID hdr nid cf).2.1
      = (FileService.write pm db fs₂ u dID hdr nid cf).2.1
    ∧ (FileService.write pm db fs₁ u dID hdr nid cf).2.2.1
      = (FileService.write pm db fs₂ u dID hdr nid cf).2.2.1
    ∧ (FileService.write pm db fs₁ u dID hdr nid cf).2.2.2.1.dirs
      = (FileService.write pm db fs₂ u dID hdr nid cf).2.2.2.1.dirs
    ∧ (FileService.write pm db fs₁ u dID hdr nid cf).2.2.2.2
      = (FileService.write pm db fs₂ u dID hdr nid cf).2.2.2.2 := by
  obtain ⟨hfst, hd⟩ := newFile_fst_dirs pm db ⟨nid, u, dID, hdr⟩ fs₁ fs₂ hdirs
  unfold FileService.write
  cases hnf1 : Io.newFile pm db fs₁ ⟨nid, u, dID, hdr⟩ with
  | mk r₁ g₁ =>
  cases hnf2 : Io.newFile pm db fs₂ ⟨nid, u, dID, hdr⟩ with
  | mk r₂ g₂ =>
  rw [hnf1, hnf2] at hfst hd
  dsimp only at hfst hd
  subst hfst
  cases r₁ with
  | error e => simp [hd]
  | ok val =>
    obtain ⟨db1, file⟩ := val
    cases cf <;> simp [hd]

/-- The loop of `saveBatch` produces exactly one result per input item. -/
theorem saveBatchLoop_length (pm : PathMapper) (u dID : String) :
    ∀ (items : List BatchItem) (db : DB) (fs : FS),
      (saveBatchLoop pm u dID db fs items).1.length = items.length := by
  intro items
  induction items with
  | nil => intro db fs; rfl
  | cons it rest ih =>
    intro db fs
    rcases hw : FileService.write pm db fs u dID it.header it.newID it.commitFails with
      ⟨fi, err, db1, fs1, cl⟩
    rcases hrec : saveBatchLoop pm u dID db1 fs1 rest with ⟨results, db2, fs2, cls⟩
    have := ih db1 fs1
    rw [hrec] at this
    simp [saveBatchLoop, hw, hrec, this]

/-- The `i`-th result of the `saveBatch` loop is exactly the outcome of the
`i`-th item's write, run on the state reached after the previous items. -/
theorem saveBatchLoop_get? (pm : PathMapper) (u dID : String) :
    ∀ (items : List BatchItem) (db : DB) (fs : FS) (i : Nat),
      (saveBatchLoop pm u dID db fs items).1.get? i
        = (items.get? i).map (fun it =>
            ⟨(FileService.write pm (batchState pm u dID db fs (items.take i)).1
                (batchState pm u dID db fs (items.take i)).2
                u dID it.header it.newID it.commitFails).1,
             (FileService.write pm (batchState pm u dID db fs (items.take i)).1
                (batchState pm u dID db fs (items.take i)).2
                u dID it.header it.newID it.commitFails).2.1⟩) := by
  intro items
  induction items with
  | nil => intro db fs i; simp [saveBatchLoop]
  | cons it rest ih =>
    intro db fs i
    rcases hw : FileService.write pm db fs u dID it.header it.newID it.commitFails with
      ⟨fi, err, db1, fs1, cl⟩
    rcases hrec : saveBatchLoop pm u dID db1 fs1 rest with ⟨results, db2, fs2, cls⟩
    cases i with
    | zero =>
      simp [saveBatchLoop, hw, hrec, batchState]
    | succ n =>
      have hres := ih db1 fs1 n
      rw [hrec] at hres
      simp only [saveBatchLoop, hw, hrec]
      simp only [List.get?_cons_succ, List.take_succ_cons, batchState, hw]
      exact hres

/-- The results of the `saveBatch` loop depend on the filesystem only through
its directory set. -/
theorem saveBatchLoop_congr (pm : PathMapper) (u dID : String) :
    ∀ (items : List BatchItem) (db : DB) (fs₁ fs₂ : FS), fs₁.dirs = fs₂.dirs →
      (saveBatchLoop pm u dID db fs₁ items).1 = (saveBatchLoop pm u dID db fs₂ items).1 := by
  intro items
  induction items with
  | nil => intro db fs₁ fs₂ _; rfl
  | cons it rest ih =>
    intro db fs₁ fs₂ hdirs
    obtain ⟨h1, h2, h3, h4, h5⟩ := fileWrite_dirs_congr pm db u dID it.header it.newID
      it.commitFails fs₁ fs₂ hdirs
    rcases hw1 : FileService.write pm db fs₁ u dID it.header it.newID it.commitFails with
      ⟨fi1, err1, db1, fsA, cl1⟩
    rcases hw2 : FileService.write pm db fs₂ u dID it.header it.newID it.commitFails with
      ⟨fi2, err2, db2, fsB, cl2⟩
    rw [hw1, hw2] at h1 h2 h3 h4 h5
    dsimp only at h1 h2 h3 h4 h5
    subst h1; subst h2; subst h3; subst h5
    rcases hr1 : saveBatchLoop pm u dID db1 fsA rest with ⟨resultsA, _, _, _⟩
    rcases hr2 : saveBatchLoop pm u dID db1 fsB rest with ⟨resultsB, _, _, _⟩
    have := ih db1 fsA fsB h4
    rw [hr1, hr2] at this
    simp [saveBatchLoop, hw1, hw2, hr1, hr2, this]

/-- Dropping a failed item from a batch leaves every other item's result
unchanged: a failed write rolls its relational writes back and touches no
directory on disk, so the remaining writes run against the same state. -/
theorem saveBatchLoop_eraseIdx (pm : PathMapper) (u dID : String) :
    ∀ (items : List BatchItem) (db : DB) (fs : FS) (j : Nat) (bs : BatchSave),
      (saveBatchLoop pm u dID db fs items).1.get? j = some bs →
      bs.err.isSome = true →
      (saveBatchLoop pm u dID db fs (items.eraseIdx j)).1
        = ((saveBatchLoop pm u dID db fs items).1).eraseIdx j := by
  intro items
  induction items with
  | nil => intro db fs j bs h _; simp [saveBatchLoop] at h
  | cons it rest ih =>
    intro db fs j bs h hsome
    rcases hw : FileService.write pm db fs u dID it.header it.newID it.commitFails with
      ⟨fi, err, db1, fs1, cl⟩
    rcases hrec : saveBatchLoop pm u dID db1 fs1 rest with ⟨results, db2, fs2, cls⟩
    cases j with
    | zero =>
      have hbs : bs = ⟨fi, err⟩ := by
        simp [saveBatchLoop, hw, hrec] at h
        exact h.symm
      subst hbs
      dsimp only at hsome
      rcases Option.isSome_iff_exists.mp hsome with ⟨e, he⟩
      rw [he] at hw
      obtain ⟨hdb, hdirs⟩ := fileWrite_err_frame pm db fs u dID it.header it.newID
        it.commitFails fi e db1 fs1 cl hw
      subst hdb
      have hcon := saveBatchLoop_congr pm u dID rest db1 fs fs1 hdirs.symm
      rw [hrec] at hcon
      simp [saveBatchLoop, hw, hrec, List.eraseIdx_cons_zero, List.eraseIdx_cons_succ]
      exact hcon
    | succ n =>
      have hres : results[n]? = some bs := by
        simp [saveBatchLoop, hw, hrec] at h
        exact h
      have hres2 : (saveBatchLoop pm u dID db1 fs1 rest).1.get? n = some bs := by
        rw [hrec, List.get?_eq_getElem?]
        exact hres
      have hrest := ih db1 fs1 n bs hres2 hsome
      rw [hrec] at hrest
      rcases hr2 : saveBatchLoop pm u dID db1 fs1 (rest.eraseIdx n) with ⟨resultsE, x2, y2, z2⟩
      rw [hr2] at hrest
      simp [saveBatchLoop, hw, hrec, hr2, List.eraseIdx_cons_succ, hrest]

/-- A `SaveBatch` that returned results resolved its target directory: either
the empty id (defaulting to the root) or an existing directory of the user. -/
theorem saveBatch_ok_dir (pm : PathMapper) (db : DB) (fs : FS)
    (userID directoryID : String) (items : List BatchItem) (env : FileEnv)
    (results : List BatchSave) (root : Dir)
    (hroot : (DirService.validateUserDir pm db fs userID env.rootID
        env.rootCommitFails).res = .ok root)
    (h : (FileService.SaveBatch pm db fs userID directoryID items env).1 = .ok results) :
    directoryID = ""
    ∨ (selectDirectoryByIDUser (DirService.validateUserDir pm db fs userID env.rootID
          env.rootCommitFails).db directoryID userID).isSome = true := by
  by_cases hdir : directoryID = ""
  · exact Or.inl hdir
  · refine Or.inr ?_
    simp only [FileService.SaveBatch, hroot] at h
    rw [if_neg hdir] at h
    cases hsel : selectDirectoryByIDUser (DirService.validateUserDir pm db fs userID
        env.rootID env.rootCommitFails).db directoryID userID with
    | none => rw [hsel] at h; simp at h
    | some row => rfl

/-- Reduction of `SaveBatch` to its loop, once the root is provisioned and the
target directory resolves. -/
theorem saveBatch_reduce (pm : PathMapper) (db : DB) (fs : FS)
    (userID directoryID : String) (items : List BatchItem) (env : FileEnv) (root : Dir)
    (hroot : (DirService.validateUserDir pm db fs userID env.rootID
        env.rootCommitFails).res = .ok root)
    (hdir : directoryID = ""
      ∨ (selectDirectoryByIDUser (DirService.validateUserDir pm db fs userID env.rootID
            env.rootCommitFails).db directoryID userID).isSome = true) :
    (FileService.SaveBatch pm db fs userID directoryID items env).1
      = .ok (saveBatchLoop pm userID (if directoryID = "" then root.ID else directoryID)
          (DirService.validateUserDir pm db fs userID env.rootID env.rootCommitFails).db
          (DirService.validateUserDir pm db fs userID env.rootID env.rootCommitFails).fs
          items).1 := by
  simp only [FileService.SaveBatch, hroot]
  by_cases hd : directoryID = ""
  · rw [if_pos hd, if_pos hd]
  · rcases hdir with hdir | hdir
    · exact absurd hdir hd
    rcases Option.isSome_iff_exists.mp hdir with ⟨row, hrow⟩
    rw [if_neg hd, if_neg hd, hrow]

/-- C3: for every user whose target directory resolves and every list of
incoming file headers, `SaveBatch` returns exactly one result per input in
input order; the `i`-th result is exactly the outcome of the `i`-th item's
write on the state left by the previous items (so its `Err` is set iff that
file's write failed); every result — including failed ones — carries the
original filename and byte size; and removing one failed item from the batch
leaves every other item's result unchanged. -/
theorem claim_C3 (pm : PathMapper) (db : DB) (fs : FS)
    (userID directoryID : String) (items : List BatchItem) (env : FileEnv)
    (results : List BatchSave) (root : Dir)
    (hroot : (DirService.validateUserDir pm db fs userID env.rootID
        env.rootCommitFails).res = .ok root)
    (h : (FileService.SaveBatch pm db fs userID directoryID items env).1 = .ok results) :
    results.length = items.length
    ∧ (∀ i : Nat, results.get? i
        = (items.get? i).map (fun it =>
            ⟨(FileService.write pm
                (batchState pm userID (if directoryID = "" then root.ID else directoryID)
                  (DirService.validateUserDir pm db fs userID env.rootID
                    env.rootCommitFails).db
                  (DirService.validateUserDir pm db fs userID env.rootID
                    env.rootCommitFails).fs (items.take i)).1
                (batchState pm userID (if directoryID = "" then root.ID else directoryID)
                  (DirService.validateUserDir pm db fs userID env.rootID
                    env.rootCommitFails).db
                  (DirService.validateUserDir pm db fs userID env.rootID
                    env.rootCommitFails).fs (items.take i)).2
                userID (if directoryID = "" then root.ID else directoryID)
                it.header it.newID it.commitFails).1,
             (FileService.write pm
                (batchState pm userID (if directoryID = "" then root.ID else directoryID)
                  (DirService.validateUserDir pm db fs userID env.rootID
                    env.rootCommitFails).db
                  (DirService.validateUserDir pm db fs userID env.rootID
                    env.rootCommitFails).fs (items.take i)).1
                (batchState pm userID (if directoryID = "" then root.ID else directoryID)
                  (DirService.validateUserDir pm db fs userID env.rootID
                    env.rootCommitFails).db
                  (DirService.validateUserDir pm db fs userID env.rootID
                    env.rootCommitFails).fs (items.take i)).2
                userID (if directoryID = "" then root.ID else directoryID)
                it.header it.newID it.commitFails).2.1⟩))
    ∧ (∀ (i : Nat) (it : BatchItem) (bs : BatchSave),
        items.get? i = some it → results.get? i = some bs →
        bs.fileInfo.name = it.header.filename ∧ bs.fileInfo.size = it.header.size)
    ∧ (∀ (j : Nat) (bs : BatchSave), results.get? j = some bs → bs.err.isSome = true →
        (FileService.SaveBatch pm db fs userID directoryID (items.eraseIdx j) env).1
          = .ok (results.eraseIdx j)) := by
  have hdir := saveBatch_ok_dir pm db fs userID directoryID items env results root hroot h
  have hred := saveBatch_reduce pm db fs userID directoryID items env root hroot hdir
  rw [h] at hred
  have hres : results = (saveBatchLoop pm userID
      (if directoryID = "" then root.ID else directoryID)
      (DirService.validateUserDir pm db fs userID env.rootID env.rootCommitFails).db
      (DirService.validateUserDir pm db fs userID env.rootID env.rootCommitFails).fs
      items).1 := by
    exact Except.ok.inj hred
  have hget := fun i => saveBatchLoop_get? pm userID
    (if directoryID = "" then root.ID else directoryID) items
    (DirService.validateUserDir pm db fs userID env.rootID env.rootCommitFails).db
    (DirService.validateUserDir pm db fs userID env.rootID env.rootCommitFails).fs i
  refine ⟨?_, ?_, ?_, ?_⟩
  · rw [hres]
    exact saveBatchLoop_length pm userID _ items _ _
  · intro i
    rw [hres]
    exact hget i
  · intro i it bs hit hbs
    rw [hres] at hbs
    rw [hget i, hit] at hbs
    simp only [Option.map_some'] at hbs
    cases hbs
    constructor
    · exact (fileWrite_name_size pm _ _ userID _ it.header it.newID it.commitFails).1
    · exact (fileWrite_name_size pm _ _ userID _ it.header it.newID it.commitFails).2
  · intro j bs hbs hsome
    have hred2 := saveBatch_reduce pm db fs userID directoryID (items.eraseIdx j) env
      root hroot hdir
    rw [hred2, hres]
    rw [hres] at hbs
    rw [saveBatchLoop_eraseIdx pm userID _ items _ _ j bs hbs hsome]


/-- Witness for C3: three incoming files of which the second duplicates the
stored `a.txt` — `SaveBatch` returns three ordered results, one conflict and
two successes, every result carries the original filename and size, and
dropping the failed item leaves the other two results unchanged. -/
theorem claim_C3_witness :
    resultsW.length = itemsW.length
    ∧ (∀ i : Nat, resultsW.get? i
        = (itemsW.get? i).map (fun it =>
            ⟨(FileService.write pmW
                (batchState pmW "u1" uuidW1 dbFile fsNoBytes (itemsW.take i)).1
                (batchState pmW "u1" uuidW1 dbFile fsNoBytes (itemsW.take i)).2
                "u1" uuidW1 it.header it.newID it.commitFails).1,
             (FileService.write pmW
                (batchState pmW "u1" uuidW1 dbFile fsNoBytes (itemsW.take i)).1
                (batchState pmW "u1" uuidW1 dbFile fsNoBytes (itemsW.take i)).2
                "u1" uuidW1 it.header it.newID it.commitFails).2.1⟩))
    ∧ (∀ (i : Nat) (it : BatchItem) (bs : BatchSave),
        itemsW.get? i = some it → resultsW.get? i = some bs →
        bs.fileInfo.name = it.header.filename ∧ bs.fileInfo.size = it.header.size)
    ∧ (∀ (j : Nat) (bs : BatchSave), resultsW.get? j = some bs → bs.err.isSome = true →
        (FileService.SaveBatch pmW dbFile fsNoBytes "u1" "" (itemsW.eraseIdx j)
          ⟨uuidW2, false⟩).1 = .ok (resultsW.eraseIdx j)) :=
  claim_C3 pmW dbFile fsNoBytes "u1" "" itemsW ⟨uuidW2, false⟩ resultsW
    ⟨uuidW1, "u1", "root", "/"⟩ (by decide) (by decide)

end Clox
